import Mathlib

/-!
Formal model of the rssos site-classification and content-extraction engine.

The development shallowly embeds the two core classes of the repository:
`SiteDetector` (utils/siteDetector.js) and `ContentParser`
(parsers/contentParser.js).  Documents are modelled as an inductive node
tree together with the raw markup string (the source keeps both: the
cheerio handle `$` and the raw `html`).  CSS selector literals appearing in
the source are represented by their parsed form, one Lean constant per
literal, each annotated with the source string.  Network fetches performed
by the two enrichment strategies are modelled by an explicit oracle that
may fail, mirroring the try/catch structure of the source.  The system
clock (`new Date()` / `Date.now()`) is an explicit millisecond parameter.
All definitions are executable and all recursion is structural, so that
concrete runs evaluate inside the kernel.
-/

set_option maxRecDepth 100000
set_option maxHeartbeats 2000000

/-! ## JavaScript string primitives

String manipulation is done on `List Char`; `String` is used as a wrapper.
These model the exact JS operations the source uses: `replace(/\s+/g, ' ')`,
`trim()`, `substring`, `includes`, `startsWith`, `toLowerCase`,
first-occurrence `replace(str, str)` and global `replace(/<[^>]*>/g, '')`.
-/

/-- Whitespace class of the JS regexes and of `String.prototype.trim`
(space, tab, newline, carriage return, form feed, vertical tab). -/
def isJsWs (c : Char) : Bool :=
  c = ' ' || c = '\t' || c = '\n' || c = '\r' || c = '\x0c' || c = '\x0b'

/-- Collapse every run of whitespace to a single space: `replace(/\s+/g, ' ')`. -/
def collapseWsData : List Char → List Char
  | [] => []
  | c :: rest =>
    if isJsWs c then
      match rest with
      | [] => [' ']
      | c2 :: _ => if isJsWs c2 then collapseWsData rest else ' ' :: collapseWsData rest
    else c :: collapseWsData rest

/-- JS `trim()`. -/
def trimData (l : List Char) : List Char :=
  ((l.dropWhile isJsWs).reverse.dropWhile isJsWs).reverse

/-- JS `trim()` on strings. -/
def jsTrim (s : String) : String := String.mk (trimData s.data)

/-- Does the first list occur at the head of the second one? -/
def strStartsList : List Char → List Char → Bool
  | [], _ => true
  | _ :: _, [] => false
  | p :: ps, c :: cs => p == c && strStartsList ps cs

/-- Substring occurrence on char lists (needle first). -/
def strContainsList : List Char → List Char → Bool
  | needle, [] => needle.isEmpty
  | needle, c :: cs => strStartsList needle (c :: cs) || strContainsList needle cs

/-- JS `hay.includes(needle)`. -/
def strContains (hay needle : String) : Bool := strContainsList needle.data hay.data

/-- JS `s.startsWith(p)`. -/
def jsStartsWith (s p : String) : Bool := strStartsList p.data s.data

/-- ASCII lower-casing of one character, as `toLowerCase` acts on the
ASCII markup the detectors inspect. -/
def lowerChar (c : Char) : Char :=
  if 'A' ≤ c ∧ c ≤ 'Z' then Char.ofNat (c.toNat + 32) else c

/-- JS `toLowerCase()`. -/
def lowerStr (s : String) : String := String.mk (s.data.map lowerChar)

/-- ASCII upper-casing of one character, for `charAt(0).toUpperCase()`. -/
def upperChar (c : Char) : Char :=
  if 'a' ≤ c ∧ c ≤ 'z' then Char.ofNat (c.toNat - 32) else c

/-- First-occurrence replacement, JS `s.replace(pat, rep)` with a string
pattern: only the first occurrence is replaced. -/
def replaceFirstData (pat rep : List Char) : List Char → List Char
  | [] => []
  | c :: cs =>
    if strStartsList pat (c :: cs) then rep ++ (c :: cs).drop pat.length
    else c :: replaceFirstData pat rep cs

/-- JS first-occurrence `replace` on strings. -/
def replaceFirst (s pat rep : String) : String :=
  if pat.data.isEmpty then String.mk (rep.data ++ s.data)
  else String.mk (replaceFirstData pat.data rep.data s.data)

/-- Global replacement of a single character, JS `s.replace(/\n/g, rep)`. -/
def replaceAllChar (s : String) (c : Char) (rep : String) : String :=
  String.mk (s.data.flatMap (fun x => if x = c then rep.data else [x]))

/-- One-pass scanner for `replace(/<[^>]*>/g, '')`: the accumulator holds
the reversed characters of a pending `<`-run; a run closed by `>` is
dropped, a run never closed is kept verbatim, exactly as the regex leaves
it unmatched. -/
def stripTagsGo : List Char → Option (List Char) → List Char
  | [], none => []
  | [], some buf => buf.reverse
  | c :: cs, none => if c = '<' then stripTagsGo cs (some [c]) else c :: stripTagsGo cs none
  | c :: cs, some buf => if c = '>' then stripTagsGo cs none else stripTagsGo cs (some (c :: buf))

/-- JS `s.replace(/<[^>]*>/g, '')` on strings. -/
def stripTags (s : String) : String := String.mk (stripTagsGo s.data none)

/-- Truthiness of a JS value that is either a string or null/undefined:
null, undefined and the empty string are falsy. -/
def jsTruthy : Option String → Bool
  | none => false
  | some s => s ≠ ""

/-- Split on whitespace runs (for `class` attribute lists). -/
def splitWsCore : List Char → List Char → List (List Char)
  | [], cur => if cur.isEmpty then [] else [cur.reverse]
  | c :: rest, cur =>
    if isJsWs c then
      if cur.isEmpty then splitWsCore rest [] else cur.reverse :: splitWsCore rest []
    else splitWsCore rest (c :: cur)

/-- Whitespace-separated tokens of a string. -/
def splitWs (s : String) : List String := (splitWsCore s.data []).map String.mk

/-! ## ContentParser.generateSummary

Source (contentParser.js):
```
generateSummary(text, maxLength = 200) {
  if (!text) return '';
  const clean = text.replace(/\s+/g, ' ').trim();
  return clean.length > maxLength ? clean.substring(0, maxLength) + '...' : clean;
}
```
-/

/-- The whitespace-collapsed, trimmed form of the input text. -/
def summaryClean (text : String) : List Char := trimData (collapseWsData text.data)

/-- ContentParser.generateSummary. -/
def generateSummary (text : String) (maxLength : Nat) : String :=
  if text = "" then ""
  else
    let clean := summaryClean text
    if maxLength < clean.length then String.mk (clean.take maxLength ++ ['.', '.', '.'])
    else String.mk clean

theorem summaryClean_empty : summaryClean "" = [] := rfl

theorem generateSummary_of_le (text : String) (maxLength : Nat)
    (h : (summaryClean text).length ≤ maxLength) :
    generateSummary text maxLength = String.mk (summaryClean text) := by
  unfold generateSummary
  by_cases he : text = ""
  · subst he; rfl
  · simp only [he, if_false]
    have : ¬ maxLength < (summaryClean text).length := Nat.not_lt.mpr h
    simp [this]

theorem generateSummary_of_gt (text : String) (maxLength : Nat)
    (h : maxLength < (summaryClean text).length) :
    (generateSummary text maxLength).data
      = (summaryClean text).take maxLength ++ ['.', '.', '.'] := by
  unfold generateSummary
  by_cases he : text = ""
  · subst he; simp [summaryClean_empty] at h
  · simp [he, h]

/-- C9: for every text whose whitespace-collapsed, trimmed form is longer
than maxLength, generateSummary returns a string of length exactly
maxLength + 3 ending in the three-character ellipsis marker; for text
whose collapsed form is at or below maxLength it returns the collapsed,
trimmed input unchanged. -/
theorem generateSummary_bound (text : String) (maxLength : Nat) :
    (maxLength < (summaryClean text).length →
      (generateSummary text maxLength).length = maxLength + 3 ∧
      (generateSummary text maxLength).data
        = (summaryClean text).take maxLength ++ ['.', '.', '.']) ∧
    ((summaryClean text).length ≤ maxLength →
      generateSummary text maxLength = String.mk (summaryClean text)) := by
  constructor
  · intro h
    have hd := generateSummary_of_gt text maxLength h
    refine ⟨?_, hd⟩
    have h3 : (generateSummary text maxLength).length
        = (generateSummary text maxLength).data.length := rfl
    rw [h3, hd, List.length_append, List.length_take,
      Nat.min_eq_left (Nat.le_of_lt h)]
    rfl
  · exact generateSummary_of_le text maxLength

/-- Witness for C9: both branches of the summary bound evaluated at
concrete inputs. -/
theorem generateSummary_bound_witness :
    (generateSummary "  hello   world  " 5).length = 5 + 3 ∧
    (generateSummary "  hello   world  " 5).data
      = (summaryClean "  hello   world  ").take 5 ++ ['.', '.', '.'] ∧
    generateSummary "  hi  there " 100 = String.mk (summaryClean "  hi  there ") := by
  refine ⟨?_, ?_, ?_⟩
  · exact ((generateSummary_bound "  hello   world  " 5).1 (by decide)).1
  · exact ((generateSummary_bound "  hello   world  " 5).1 (by decide)).2
  · exact (generateSummary_bound "  hi  there " 100).2 (by decide)

/-! ## MD5 and ContentParser.generateGuid

Source (contentParser.js):
```
generateGuid(identifier) {
  const hash = require('crypto').createHash('md5').update(identifier + this.siteInfo.url).digest('hex');
  return `rssos-` + hash.substring(0, 16);  -- written with a template literal
}
```
The MD5 digest is implemented in full (RFC 1321), operating on the UTF-8
bytes of the input, with 32-bit words as naturals reduced mod 2^32.
-/

/-- Addition mod 2^32. -/
def add32 (a b : Nat) : Nat := (a + b) % 4294967296

/-- Left rotation of a 32-bit word. -/
def rotl32 (x s : Nat) : Nat := ((x <<< s) % 4294967296) ||| (x >>> (32 - s))

/-- Bitwise complement of a 32-bit word. -/
def not32 (x : Nat) : Nat := 4294967295 ^^^ x

/-- The 64 MD5 sine-derived constants of RFC 1321. -/
def md5K : List Nat := [
  0xd76aa478, 0xe8c7b756, 0x242070db, 0xc1bdceee, 0xf57c0faf, 0x4787c62a, 0xa8304613, 0xfd469501,
  0x698098d8, 0x8b44f7af, 0xffff5bb1, 0x895cd7be, 0x6b901122, 0xfd987193, 0xa679438e, 0x49b40821,
  0xf61e2562, 0xc040b340, 0x265e5a51, 0xe9b6c7aa, 0xd62f105d, 0x02441453, 0xd8a1e681, 0xe7d3fbc8,
  0x21e1cde6, 0xc33707d6, 0xf4d50d87, 0x455a14ed, 0xa9e3e905, 0xfcefa3f8, 0x676f02d9, 0x8d2a4c8a,
  0xfffa3942, 0x8771f681, 0x6d9d6122, 0xfde5380c, 0xa4beea44, 0x4bdecfa9, 0xf6bb4b60, 0xbebfbc70,
  0x289b7ec6, 0xeaa127fa, 0xd4ef3085, 0x04881d05, 0xd9d4d039, 0xe6db99e5, 0x1fa27cf8, 0xc4ac5665,
  0xf4292244, 0x432aff97, 0xab9423a7, 0xfc93a039, 0x655b59c3, 0x8f0ccc92, 0xffeff47d, 0x85845dd1,
  0x6fa87e4f, 0xfe2ce6e0, 0xa3014314, 0x4e0811a1, 0xf7537e82, 0xbd3af235, 0x2ad7d2bb, 0xeb86d391]

/-- The 64 per-round left-rotation amounts of RFC 1321. -/
def md5S : List Nat := [
  7, 12, 17, 22, 7, 12, 17, 22, 7, 12, 17, 22, 7, 12, 17, 22,
  5, 9, 14, 20, 5, 9, 14, 20, 5, 9, 14, 20, 5, 9, 14, 20,
  4, 11, 16, 23, 4, 11, 16, 23, 4, 11, 16, 23, 4, 11, 16, 23,
  6, 10, 15, 21, 6, 10, 15, 21, 6, 10, 15, 21, 6, 10, 15, 21]

/-- MD5 padding: append 0x80, zero bytes to 56 mod 64, then the
little-endian 64-bit bit length. -/
def padMsg (msg : List Nat) : List Nat :=
  let bitLen := (msg.length * 8) % (2 ^ 64)
  let padZeros := (55 + 64 - (msg.length % 64)) % 64
  msg ++ [0x80] ++ List.replicate padZeros 0 ++
    (List.range 8).map (fun i => (bitLen >>> (8 * i)) % 256)

/-- Little-endian 32-bit word `j` of a 64-byte chunk. -/
def leWord (b : List Nat) (j : Nat) : Nat :=
  b.getD (4*j) 0 + b.getD (4*j+1) 0 * 256 + b.getD (4*j+2) 0 * 65536 + b.getD (4*j+3) 0 * 16777216

/-- One of the 64 MD5 rounds on state (a, b, c, d). -/
def md5Round (m : List Nat) : Nat → Nat × Nat × Nat × Nat → Nat × Nat × Nat × Nat
  | i, (a, b, c, d) =>
    let f :=
      if i < 16 then (b &&& c) ||| (not32 b &&& d)
      else if i < 32 then (d &&& b) ||| (not32 d &&& c)
      else if i < 48 then b ^^^ c ^^^ d
      else c ^^^ (b ||| not32 d)
    let g :=
      if i < 16 then i
      else if i < 32 then (5*i + 1) % 16
      else if i < 48 then (3*i + 5) % 16
      else (7*i) % 16
    let tmp := add32 (add32 (add32 f a) (md5K.getD i 0)) (leWord m g)
    (d, add32 b (rotl32 tmp (md5S.getD i 0)), b, c)

/-- Process one 64-byte chunk. -/
def md5Chunk (st : Nat × Nat × Nat × Nat) (chunk : List Nat) : Nat × Nat × Nat × Nat :=
  let r := (List.range 64).foldl (fun acc i => md5Round chunk i acc) st
  (add32 st.1 r.1, add32 st.2.1 r.2.1, add32 st.2.2.1 r.2.2.1, add32 st.2.2.2 r.2.2.2)

/-- Split a byte list into 64-byte chunks (structurally, via an
accumulator holding the reversed current chunk). -/
def chunksGo : List Nat → List Nat → List (List Nat)
  | [], cur => if cur.isEmpty then [] else [cur.reverse]
  | b :: rest, cur =>
    if cur.length == 63 then (b :: cur).reverse :: chunksGo rest []
    else chunksGo rest (b :: cur)

/-- 64-byte chunks of a list. -/
def chunksOf64 (l : List Nat) : List (List Nat) := chunksGo l []

/-- MD5 initial state. -/
def md5Init : Nat × Nat × Nat × Nat := (0x67452301, 0xefcdab89, 0x98badcfe, 0x10325476)

/-- Little-endian bytes of a 32-bit word. -/
def wordLEBytes (w : Nat) : List Nat := [w % 256, (w >>> 8) % 256, (w >>> 16) % 256, (w >>> 24) % 256]

/-- One lowercase hexadecimal digit. -/
def natToHexDigit (n : Nat) : Char := if n < 10 then Char.ofNat (48 + n) else Char.ofNat (87 + n)

/-- Two lowercase hexadecimal digits of a byte. -/
def byteHex (b : Nat) : List Char := [natToHexDigit (b / 16), natToHexDigit (b % 16)]

/-- Lowercase hexadecimal MD5 digest of a byte list. -/
def md5HexBytes (msg : List Nat) : String :=
  let st := (chunksOf64 (padMsg msg)).foldl md5Chunk md5Init
  String.mk (((wordLEBytes st.1 ++ wordLEBytes st.2.1 ++ wordLEBytes st.2.2.1
    ++ wordLEBytes st.2.2.2).map byteHex).flatten)

/-- UTF-8 bytes of a string, the byte stream `crypto` hashes. -/
def utf8Bytes (s : String) : List Nat :=
  s.data.flatMap (fun c =>
    let n := c.toNat
    if n < 0x80 then [n]
    else if n < 0x800 then [0xC0 ||| (n >>> 6), 0x80 ||| (n &&& 0x3F)]
    else if n < 0x10000 then [0xE0 ||| (n >>> 12), 0x80 ||| ((n >>> 6) &&& 0x3F), 0x80 ||| (n &&& 0x3F)]
    else [0xF0 ||| (n >>> 18), 0x80 ||| ((n >>> 12) &&& 0x3F), 0x80 ||| ((n >>> 6) &&& 0x3F), 0x80 ||| (n &&& 0x3F)])

/-- Lowercase hexadecimal MD5 digest of a string. -/
def md5Hex (s : String) : String := md5HexBytes (utf8Bytes s)

theorem md5Hex_abc : md5Hex "abc" = "900150983cd24fb0d6963f7d28e17f72" := by decide

/-- ContentParser.generateGuid, with the parser's site URL explicit:
the MD5 digest of identifier ++ siteUrl, truncated to 16 hex digits,
behind the constant namespace marker. -/
def generateGuid (siteUrl identifier : String) : String :=
  "rssos-" ++ String.mk ((md5Hex (identifier ++ siteUrl)).data.take 16)

/-! ## Document model and selector engine

A parsed HTML document, as the external parser (cheerio) hands it to the
core: a tree of element and text nodes.  The selector literals of the
source are represented by their parsed form: a selector is a list of
comma-alternatives, each alternative a descendant chain of simple
selectors (tag, classes, id, exact attribute test) — the full grammar
needed by every selector string occurring in siteDetector.js and
contentParser.js.  Matching semantics follow cheerio: a node matches a
chain when it matches the last simple selector and the earlier ones match
a strictly ascending sequence of its ancestors; query results are in
document (preorder) order.
-/

/-- A DOM node: text or element with attribute list and children. -/
inductive DNode where
  | txt (s : String)
  | el (tag : String) (attrs : List (String × String)) (children : List DNode)
deriving Repr

/-- Value of an attribute in an attribute list. -/
def attrLookup (attrs : List (String × String)) (name : String) : Option String :=
  (attrs.find? (fun p => p.1 == name)).map (fun p => p.2)

/-- Attribute of a node; text nodes have none. -/
def nodeAttr : DNode → String → Option String
  | .txt _, _ => none
  | .el _ attrs _, name => attrLookup attrs name

/-- Class list of a node (whitespace-split `class` attribute). -/
def nodeClasses (n : DNode) : List String := splitWs ((nodeAttr n "class").getD "")

/-- jQuery `hasClass` on one node. -/
def nodeHasClass (n : DNode) (c : String) : Bool := (nodeClasses n).contains c

/-- One simple selector: optional tag, required classes, optional id,
optional exact attribute test. -/
structure SimpleSel where
  tag : Option String
  classes : List String
  idSel : Option String
  attrEq : Option (String × String)
deriving Repr

/-- Simple selector for a bare tag name. -/
def tS (t : String) : SimpleSel := ⟨some t, [], none, none⟩

/-- Simple selector for a single class. -/
def cS (c : String) : SimpleSel := ⟨none, [c], none, none⟩

/-- Simple selector for two classes (e.g. `.asset-name.entry-title`). -/
def ccS (c₁ c₂ : String) : SimpleSel := ⟨none, [c₁, c₂], none, none⟩

/-- Simple selector for tag plus class (e.g. `h2.entry-title`). -/
def tcS (t c : String) : SimpleSel := ⟨some t, [c], none, none⟩

/-- Simple selector for an id (e.g. `#homepage`). -/
def idS (i : String) : SimpleSel := ⟨none, [], some i, none⟩

/-- Simple selector for tag plus exact attribute value
(e.g. `meta[name="generator"]`). -/
def taS (t k v : String) : SimpleSel := ⟨some t, [], none, some (k, v)⟩

/-- Does a node match one simple selector?  Text nodes never match. -/
def matchesSimple (n : DNode) (s : SimpleSel) : Bool :=
  match n with
  | .txt _ => false
  | .el tag attrs _ =>
    (match s.tag with | none => true | some t => tag == t) &&
    s.classes.all (fun c => (splitWs ((attrLookup attrs "class").getD "")).contains c) &&
    (match s.idSel with | none => true | some i => attrLookup attrs "id" == some i) &&
    (match s.attrEq with | none => true | some kv => attrLookup attrs kv.1 == some kv.2)

/-- A descendant chain of simple selectors. -/
abbrev Chain := List SimpleSel

/-- A selector: comma-separated chain alternatives. -/
abbrev Sel := List Chain

/-- All nodes of a subtree in preorder, each with its ancestor list within
the subtree, nearest ancestor first. -/
def withAnc : DNode → List (DNode × List DNode)
  | .txt s => [(.txt s, [])]
  | .el t a cs => (.el t a cs, []) :: (go cs).map (fun p => (p.1, .el t a cs :: p.2))
where go : List DNode → List (DNode × List DNode)
  | [] => []
  | c :: cs => withAnc c ++ go cs

/-- Does the simple-selector list (outermost first) match a subsequence of
the node list (outermost first)?  Greedy scan, sound and complete for
subsequence existence. -/
def seqEmbedsB : List SimpleSel → List DNode → Bool
  | [], _ => true
  | _ :: _, [] => false
  | c :: cs, a :: as => if matchesSimple a c then seqEmbedsB cs as else seqEmbedsB (c :: cs) as

/-- Does a node with the given (nearest-first) ancestor list match a chain? -/
def nodeMatchesChain (n : DNode) (anc : List DNode) (ch : Chain) : Bool :=
  match ch.getLast? with
  | none => false
  | some c => matchesSimple n c && seqEmbedsB ch.dropLast anc.reverse

/-- cheerio `$(selector)` on a loaded document: every node of the tree
matching any chain alternative, in document order. -/
def docSelect (doc : DNode) (sel : Sel) : List DNode :=
  ((withAnc doc).filter (fun p => sel.any (nodeMatchesChain p.1 p.2))).map (fun p => p.1)

/-- jQuery `$el.find(selector)`: matching strict descendants of the
element, the element itself eligible as ancestor context for the leading
parts of a chain. -/
def findQ (el : DNode) (sel : Sel) : List DNode :=
  ((withAnc el).filter
    (fun p => !p.2.isEmpty && sel.any (nodeMatchesChain p.1 p.2))).map (fun p => p.1)

/-- cheerio `$(x)` where the selector may be a JS `undefined` field:
`$(undefined)` is the empty selection. -/
def dq (doc : DNode) : Option Sel → List DNode
  | none => []
  | some s => docSelect doc s

/-- `$el.find(x)` with a possibly-`undefined` selector. -/
def findOpt (el : DNode) : Option Sel → List DNode
  | none => []
  | some s => findQ el s

/-- jQuery `.text()` of one node: concatenated text of the subtree. -/
def textOf : DNode → String
  | .txt s => s
  | .el _ _ cs => go cs
where go : List DNode → String
  | [] => ""
  | c :: cs => textOf c ++ go cs

/-- jQuery `.text()` of a selection: concatenation over all matched nodes. -/
def selText (l : List DNode) : String := (l.map textOf).foldl (fun a b => a ++ b) ""

/-- jQuery `.attr(name)` of a selection: the first matched node's
attribute, `undefined` on an empty selection or a missing attribute. -/
def selAttr (l : List DNode) (name : String) : Option String :=
  l.head?.bind (fun n => nodeAttr n name)

/-- jQuery `.is(selector)`: does some matched node match the selector?
All `is` call sites in the source use single-compound selectors, so only
the chain's sole element is consulted; longer chains (whose outer parts
name ancestors outside the selection) do not match. -/
def selIs (l : List DNode) (sel : Sel) : Bool :=
  l.any (fun n => sel.any (fun ch => match ch with
    | [c] => matchesSimple n c
    | _ => false))

/-- jQuery `.hasClass(c)`: does some matched node carry the class? -/
def selHasClass (l : List DNode) (c : String) : Bool := l.any (fun n => nodeHasClass n c)

/-- HTML text escaping used by the serializer. -/
def escTextData (l : List Char) : List Char :=
  l.flatMap (fun c =>
    if c = '&' then "&amp;".data
    else if c = '<' then "&lt;".data
    else if c = '>' then "&gt;".data
    else [c])

/-- HTML attribute-value escaping used by the serializer. -/
def escAttrData (l : List Char) : List Char :=
  l.flatMap (fun c =>
    if c = '&' then "&amp;".data
    else if c = '"' then "&quot;".data
    else [c])

/-- Tags serialized without a closing tag. -/
def voidTags : List String :=
  ["area", "base", "br", "col", "embed", "hr", "img", "input", "link", "meta", "source", "track", "wbr"]

/-- Serialize one attribute list. -/
def serializeAttrs (attrs : List (String × String)) : String :=
  attrs.foldl (fun acc p => acc ++ " " ++ p.1 ++ "=\"" ++ String.mk (escAttrData p.2.data) ++ "\"") ""

/-- Serialize a node to markup, as cheerio `.html()` renders it. -/
def serializeNode : DNode → String
  | .txt s => String.mk (escTextData s.data)
  | .el t a cs =>
    if voidTags.contains t then "<" ++ t ++ serializeAttrs a ++ ">"
    else "<" ++ t ++ serializeAttrs a ++ ">" ++ go cs ++ "</" ++ t ++ ">"
where go : List DNode → String
  | [] => ""
  | c :: cs => serializeNode c ++ go cs

/-- Serialize a node list (a fragment). -/
def serializeList (l : List DNode) : String :=
  (l.map serializeNode).foldl (fun a b => a ++ b) ""

/-- Inner HTML of one node. -/
def innerHtml : DNode → String
  | .txt _ => ""
  | .el _ _ cs => serializeList cs

/-- jQuery `.html()` of a selection: inner HTML of the first matched
node, `null` on an empty selection. -/
def selHtml (l : List DNode) : Option String := l.head?.map innerHtml

/-- Text content of the first matched node's children.  The source
computes this as loading the serialized inner HTML into a fresh fragment
and taking its text; reparsing the serializer's own output recovers the
fragment, so the composite is the fragment's text. -/
def selInnerText (l : List DNode) : String :=
  match l.head? with
  | none => ""
  | some n => textOf n

/-! ## SiteDetector (utils/siteDetector.js)

The constructor registers eight detectors in declared order:
`[detectWordPress, detectBlogger, detectMedium, detectGitHub, detectNews,
detectECommerce, detectPortfolio, detectGeneric]`.  `detectBlogger` is not
defined anywhere in the class (nor the repository), so that slot holds the
JS value `undefined`, modelled as `none` below; invoking it
(`detector.call(this, $, url, html)`) is a TypeError.
-/

/-- The selector-rule map of a classification result: role to selector,
a missing role modelling an absent key. -/
structure SelectorRules where
  articles : Option Sel
  title : Option Sel
  content : Option Sel
  date : Option Sel
  link : Option Sel
  author : Option Sel
  image : Option Sel
  price : Option Sel
  summary : Option Sel
deriving Repr

/-- The empty rule map `{}`. -/
def emptyRules : SelectorRules := ⟨none, none, none, none, none, none, none, none, none⟩

/-- The mutable result object of detectSiteType (field `type` of the
source is `stype` here; `type` is a Lean keyword). -/
structure SiteInfo where
  url : String
  stype : String
  platform : String
  confidence : Nat
  selectors : SelectorRules
  features : List String
deriving Repr

/-- What one detector returns: everything but the url. -/
structure DetectorResult where
  stype : String
  platform : String
  confidence : Nat
  selectors : SelectorRules
  features : List String
deriving Repr

/-- `Object.assign(siteInfo, result)`: overwrite every key the detector
result carries, keep `url`. -/
def assignResult (si : SiteInfo) (r : DetectorResult) : SiteInfo :=
  { url := si.url, stype := r.stype, platform := r.platform, confidence := r.confidence,
    selectors := r.selectors, features := r.features }

/-- A detector: document, url, raw markup to candidate result. -/
abbrev Detector := DNode → String → String → DetectorResult

/-- Selector `meta[name="generator"]`. -/
def metaGeneratorSel : Sel := [[taS "meta" "name" "generator"]]

/-- Selector `body`. -/
def bodySel : Sel := [[tS "body"]]

/-- WordPress rule `.post, article, .entry`. -/
def wpArticlesSel : Sel := [[cS "post"], [tS "article"], [cS "entry"]]

/-- WordPress rule `.entry-title, .post-title, h1, h2.entry-title`. -/
def wpTitleSel : Sel := [[cS "entry-title"], [cS "post-title"], [tS "h1"], [tcS "h2" "entry-title"]]

/-- WordPress rule `.entry-content, .post-content, .content`. -/
def wpContentSel : Sel := [[cS "entry-content"], [cS "post-content"], [cS "content"]]

/-- WordPress rule `.entry-date, .post-date, time`. -/
def wpDateSel : Sel := [[cS "entry-date"], [cS "post-date"], [tS "time"]]

/-- WordPress rule `.entry-title a, .post-title a`. -/
def wpLinkSel : Sel := [[cS "entry-title", tS "a"], [cS "post-title", tS "a"]]

/-- The rule map detectWordPress attaches above its threshold. -/
def wpRules : SelectorRules :=
  ⟨some wpArticlesSel, some wpTitleSel, some wpContentSel, some wpDateSel,
    some wpLinkSel, none, none, none, none⟩

/-- SiteDetector.detectWordPress. -/
def detectWordPress : Detector := fun doc _url html =>
  let hit1 := strContains html "wp-content" || strContains html "wp-includes"
  let genHit := ((selAttr (docSelect doc metaGeneratorSel) "content").map
    (fun s => strContains s "WordPress")).getD false
  let bodyHit := selHasClass (docSelect doc bodySel) "wp-admin-bar-front"
  let confidence := (if hit1 then 30 else 0) + (if genHit then 40 else 0) +
    (if bodyHit then 20 else 0)
  { stype := "blog", platform := "wordpress", confidence,
    selectors := if 50 < confidence then wpRules else emptyRules,
    features := (if hit1 then ["wp-content-detected"] else []) ++
      (if genHit then ["wp-generator-meta"] else []) }

/-- Selector `meta[property="al:web:url"]`. -/
def mediumMetaSel : Sel := [[taS "meta" "property" "al:web:url"]]

/-- The rule map detectMedium attaches above its threshold:
articles `article, .postArticle`; title `h1, .graf--title`; content
`.section-content, .postArticle-content`; date `time, .postMetaInline time`;
author `.postMetaInline a`. -/
def mediumRules : SelectorRules :=
  ⟨some [[tS "article"], [cS "postArticle"]],
    some [[tS "h1"], [cS "graf--title"]],
    some [[cS "section-content"], [cS "postArticle-content"]],
    some [[tS "time"], [cS "postMetaInline", tS "time"]],
    none, some [[cS "postMetaInline", tS "a"]], none, none, none⟩

/-- SiteDetector.detectMedium. -/
def detectMedium : Detector := fun doc url html =>
  let domainHit := strContains url "medium.com"
  let brandHit := strContains html "Medium" ||
    ((selAttr (docSelect doc mediumMetaSel) "content").map
      (fun s => strContains s "medium.com")).getD false
  let confidence := (if domainHit then 60 else 0) + (if brandHit then 30 else 0)
  { stype := "blog", platform := "medium", confidence,
    selectors := if 50 < confidence then mediumRules else emptyRules,
    features := if domainHit then ["medium-domain"] else [] }

/-- Selector `meta[property="og:site_name"]`. -/
def ogSiteNameSel : Sel := [[taS "meta" "property" "og:site_name"]]

/-- The rule map detectGitHub attaches above its threshold:
articles `.commit, .issue-item, .release`; title `.commit-title,
.issue-title, .release-title`; content `.commit-desc, .issue-body,
.release-body`; date `time, .date`. -/
def githubRules : SelectorRules :=
  ⟨some [[cS "commit"], [cS "issue-item"], [cS "release"]],
    some [[cS "commit-title"], [cS "issue-title"], [cS "release-title"]],
    some [[cS "commit-desc"], [cS "issue-body"], [cS "release-body"]],
    some [[tS "time"], [cS "date"]], none, none, none, none, none⟩

/-- SiteDetector.detectGitHub. -/
def detectGitHub : Detector := fun doc url _html =>
  let domainHit := strContains url "github.io" || strContains url "github.com"
  let metaHit := selAttr (docSelect doc ogSiteNameSel) "content" == some "GitHub"
  let confidence := (if domainHit then 50 else 0) + (if metaHit then 30 else 0)
  { stype := "repository", platform := "github", confidence,
    selectors := if 50 < confidence then githubRules else emptyRules,
    features := if domainHit then ["github-domain"] else [] }

/-- Selector `.article, .news-item, .story`. -/
def newsProbeSel : Sel := [[cS "article"], [cS "news-item"], [cS "story"]]

/-- Selector `meta[property="og:type"]`. -/
def ogTypeSel : Sel := [[taS "meta" "property" "og:type"]]

/-- The rule map detectNews attaches above its threshold:
articles `article, .article, .news-item, .story, .post`; title `h1, h2,
.headline, .title, .article-title`; content `.article-content,
.story-content, .content, .text`; date `time, .date, .published,
.timestamp`; summary `.summary, .excerpt, .intro`. -/
def newsRules : SelectorRules :=
  ⟨some [[tS "article"], [cS "article"], [cS "news-item"], [cS "story"], [cS "post"]],
    some [[tS "h1"], [tS "h2"], [cS "headline"], [cS "title"], [cS "article-title"]],
    some [[cS "article-content"], [cS "story-content"], [cS "content"], [cS "text"]],
    some [[tS "time"], [cS "date"], [cS "published"], [cS "timestamp"]],
    none, none, none, none,
    some [[cS "summary"], [cS "excerpt"], [cS "intro"]]⟩

/-- SiteDetector.detectNews. -/
def detectNews : Detector := fun doc _url html =>
  let manyHit := 5 < (docSelect doc newsProbeSel).length
  let metaHit := selAttr (docSelect doc ogTypeSel) "content" == some "article"
  let ldHit := strContains html "\"@type\":\"NewsArticle\"" ||
    strContains html "\"@type\":\"Article\""
  let confidence := (if manyHit then 20 else 0) + (if metaHit then 30 else 0) +
    (if ldHit then 40 else 0)
  { stype := "news", platform := "news", confidence,
    selectors := if 30 < confidence then newsRules else emptyRules,
    features := (if manyHit then ["multiple-articles"] else []) ++
      (if metaHit then ["article-meta"] else []) ++
      (if ldHit then ["structured-data"] else []) }

/-- Selector `.product, .item, .goods`. -/
def ecomProbeSel : Sel := [[cS "product"], [cS "item"], [cS "goods"]]

/-- The rule map detectECommerce attaches above its threshold:
articles `.product, .item, .goods, .listing`; title `.product-title,
.item-title, h1, h2`; content `.description, .product-desc, .details`;
price `.price, .cost, .amount`. -/
def ecomRules : SelectorRules :=
  ⟨some [[cS "product"], [cS "item"], [cS "goods"], [cS "listing"]],
    some [[cS "product-title"], [cS "item-title"], [tS "h1"], [tS "h2"]],
    some [[cS "description"], [cS "product-desc"], [cS "details"]],
    none, none, none, none, some [[cS "price"], [cS "cost"], [cS "amount"]], none⟩

/-- SiteDetector.detectECommerce. -/
def detectECommerce : Detector := fun doc _url html =>
  let listHit := 5 < (docSelect doc ecomProbeSel).length
  let ldHit := strContains html "\"@type\":\"Product\""
  let kwMatches := (["price", "cart", "buy", "shop", "product"].filter
    (fun kw => strContains (lowerStr html) kw)).length
  let confidence := (if listHit then 30 else 0) + (if ldHit then 40 else 0) + kwMatches * 5
  { stype := "ecommerce", platform := "shop", confidence,
    selectors := if 25 < confidence then ecomRules else emptyRules,
    features := (if listHit then ["product-listings"] else []) ++
      (if ldHit then ["product-structured-data"] else []) }

/-- Selector `.project, .work, .case-study, .portfolio-item`. -/
def portfolioProbeSel : Sel := [[cS "project"], [cS "work"], [cS "case-study"], [cS "portfolio-item"]]

/-- Selector `meta[name="description"]`. -/
def metaDescSel : Sel := [[taS "meta" "name" "description"]]

/-- The rule map detectPortfolio attaches above its threshold:
articles `.project, .work, .case-study, .portfolio-item`; title
`.project-title, .work-title, h1, h2, h3`; content `.project-desc,
.work-description, .description`; image `.project-image, .work-image, img`;
link `.project-link, .work-link, a`. -/
def portfolioRules : SelectorRules :=
  ⟨some [[cS "project"], [cS "work"], [cS "case-study"], [cS "portfolio-item"]],
    some [[cS "project-title"], [cS "work-title"], [tS "h1"], [tS "h2"], [tS "h3"]],
    some [[cS "project-desc"], [cS "work-description"], [cS "description"]],
    none, some [[cS "project-link"], [cS "work-link"], [tS "a"]],
    none, some [[cS "project-image"], [cS "work-image"], [tS "img"]], none, none⟩

/-- SiteDetector.detectPortfolio. -/
def detectPortfolio : Detector := fun doc url html =>
  let kwMatches := (["portfolio", "work", "project", "case-study", "design"].filter
    (fun kw => strContains (lowerStr html) kw || strContains (lowerStr url) kw)).length
  let listHit := 2 < (docSelect doc portfolioProbeSel).length
  let description := (( selAttr (docSelect doc metaDescSel) "content").map lowerStr).getD ""
  let descHit := ["designer", "portfolio", "creative", "artist", "developer"].any
    (fun w => strContains description w)
  let confidence := kwMatches * 10 + (if listHit then 30 else 0) + (if descHit then 20 else 0)
  { stype := "portfolio", platform := "portfolio", confidence,
    selectors := if 25 < confidence then portfolioRules else emptyRules,
    features := (if listHit then ["project-listings"] else []) ++
      (if descHit then ["design-description"] else []) }

/-- The fixed rule map of the generic fallback detector:
articles `article, .post, .entry, .item, .content-item`; title `h1, h2,
.title, .headline, .entry-title`; content `.content, .text, .description,
.summary`; date `time, .date, .published`; link `a`. -/
def genericRules : SelectorRules :=
  ⟨some [[tS "article"], [cS "post"], [cS "entry"], [cS "item"], [cS "content-item"]],
    some [[tS "h1"], [tS "h2"], [cS "title"], [cS "headline"], [cS "entry-title"]],
    some [[cS "content"], [cS "text"], [cS "description"], [cS "summary"]],
    some [[tS "time"], [cS "date"], [cS "published"]],
    some [[tS "a"]], none, none, none, none⟩

/-- SiteDetector.detectGeneric: always matches at the lowest fixed
confidence with maximally generic rules. -/
def detectGeneric : Detector := fun _doc _url _html =>
  { stype := "generic", platform := "unknown", confidence := 10,
    selectors := genericRules, features := ["generic-fallback"] }

/-- The detector list of the SiteDetector constructor, in declaration
order.  The second slot is `this.detectBlogger`, a method that does not
exist on the class, i.e. the JS value `undefined`. -/
def siteDetectors : List (Option Detector) :=
  [some detectWordPress, none, some detectMedium, some detectGitHub,
    some detectNews, some detectECommerce, some detectPortfolio, some detectGeneric]

/-- The loop body of detectSiteType: replace the running best only on a
strictly greater confidence. -/
def coordStep (best : SiteInfo) (r : DetectorResult) : SiteInfo :=
  if best.confidence < r.confidence then assignResult best r else best

/-- The coordinator loop over detector results. -/
def keepBest (si : SiteInfo) (rs : List DetectorResult) : SiteInfo :=
  rs.foldl coordStep si

/-- The detector loop of detectSiteType over the registered (possibly
undefined) detectors; calling an undefined entry is a TypeError. -/
def runDetectors : SiteInfo → List (Option Detector) → DNode → String → String →
    Except String SiteInfo
  | si, [], _, _, _ => .ok si
  | _, none :: _, _, _, _ =>
    .error "TypeError: Cannot read properties of undefined (reading call)"
  | si, some d :: rest, doc, url, html =>
    runDetectors (coordStep si (d doc url html)) rest doc url html

/-- The initial siteInfo object of detectSiteType. -/
def initialSiteInfo (url : String) : SiteInfo :=
  { url := url, stype := "unknown", platform := "unknown", confidence := 0,
    selectors := emptyRules, features := [] }

/-- SiteDetector.detectSiteType: run every registered detector over the
document, keeping the best result. -/
def detectSiteType (doc : DNode) (html url : String) : Except String SiteInfo :=
  runDetectors (initialSiteInfo url) siteDetectors doc url html

/-! ## ContentParser: construction and utilities (parsers/contentParser.js)

The constructor runs `this.baseUrl = new URL(siteInfo.url).origin` before
anything else, so an unparseable site URL throws a TypeError before any
strategy can run.  The host URL parser is modelled for hierarchical
`scheme://host` URLs, the shape every origin URL of this engine takes:
a parseable URL is an ASCII-alpha-led scheme of scheme characters,
the literal `://`, and a nonempty host (up to the first `/`, `?` or `#`);
its origin is the lower-cased `scheme://host`.
-/

/-- ASCII letter. -/
def isAlpha (c : Char) : Bool := ('a' ≤ c && c ≤ 'z') || ('A' ≤ c && c ≤ 'Z')

/-- Character allowed in a URL scheme after the first letter. -/
def isSchemeChar (c : Char) : Bool :=
  isAlpha c || ('0' ≤ c && c ≤ '9') || c = '+' || c = '-' || c = '.'

/-- Models `new URL(u).origin`: `some origin` when the URL parses,
`none` when the constructor would throw. -/
def urlOrigin (u : String) : Option String :=
  let l := u.data
  let sch := l.takeWhile isSchemeChar
  let rest := l.dropWhile isSchemeChar
  match sch with
  | [] => none
  | c :: _ =>
    if !isAlpha c then none
    else if strStartsList "://".data rest then
      let host := (rest.drop 3).takeWhile (fun x => x ≠ '/' && x ≠ '?' && x ≠ '#')
      if host.isEmpty then none
      else some (String.mk (sch.map lowerChar) ++ "://" ++ String.mk (host.map lowerChar))
    else none

/-- The ContentParser instance: the siteInfo passed to the constructor and
the origin computed from it. -/
structure ContentParser where
  siteInfo : SiteInfo
  baseUrl : String

/-- The ContentParser constructor: evaluates `new URL(siteInfo.url).origin`;
a site URL the URL parser rejects throws before any strategy runs. -/
def ContentParser.make (si : SiteInfo) : Except String ContentParser :=
  match urlOrigin si.url with
  | none => .error "TypeError: Invalid URL"
  | some o => .ok ⟨si, o⟩

/-- ContentParser.resolveUrl: four-case URL resolution against the origin. -/
def resolveUrl (p : ContentParser) (url : Option String) : String :=
  match url with
  | none => p.siteInfo.url
  | some u =>
    if u = "" then p.siteInfo.url
    else if jsStartsWith u "http" then u
    else if jsStartsWith u "//" then "https:" ++ u
    else if jsStartsWith u "/" then p.baseUrl ++ u
    else p.baseUrl ++ "/" ++ u

/-- ContentParser.extractText: first descendant matching the selector,
else the element itself when it matches, else empty. -/
def extractText (el : DNode) (sel : Option Sel) : String :=
  match sel with
  | none => ""
  | some s =>
    match (findQ el s).head? with
    | some e => textOf e
    | none => if selIs [el] s then textOf el else ""

/-- Selector `a`. -/
def aSel : Sel := [[tS "a"]]

/-- ContentParser.extractLink: href of the first selector match, else the
first descendant link, resolved; the site URL when nothing is found. -/
def extractLink (p : ContentParser) (el : DNode) (sel : Option Sel) : String :=
  match sel with
  | none => p.siteInfo.url
  | some s =>
    let link₀ : Option String := match (findQ el s).head? with
      | some linkEl => nodeAttr linkEl "href"
      | none => none
    let link₁ : Option String :=
      if jsTruthy link₀ then link₀
      else match (findQ el aSel).head?.bind (fun n => nodeAttr n "href") with
        | some anyLink => if anyLink ≠ "" then some anyLink else link₀
        | none => link₀
    if jsTruthy link₁ then resolveUrl p link₁ else p.siteInfo.url

/-- ContentParser.extractImage: src or data-src of the first match,
resolved; null when nothing is found. -/
def extractImage (p : ContentParser) (el : DNode) (sel : Option Sel) : Option String :=
  match sel with
  | none => none
  | some s =>
    match (findQ el s).head? with
    | none => none
    | some imgEl =>
      let src : Option String := match nodeAttr imgEl "src" with
        | some v => if v ≠ "" then some v else nodeAttr imgEl "data-src"
        | none => nodeAttr imgEl "data-src"
      if jsTruthy src then some (resolveUrl p src) else none

/-- ContentParser.extractDate: datetime attribute or text of the first
match; null when nothing is found. -/
def extractDate (el : DNode) (sel : Option Sel) : Option String :=
  match sel with
  | none => none
  | some s =>
    match (findQ el s).head? with
    | none => none
    | some dateEl =>
      match nodeAttr dateEl "datetime" with
      | some v => if v ≠ "" then some v else some (textOf dateEl)
      | none => some (textOf dateEl)

/-- ContentParser.capitalize. -/
def capitalize (s : String) : String :=
  match s.data with
  | [] => ""
  | c :: rest => String.mk (upperChar c :: rest)

/-! ### The host clock and date formatting

`new Date()` / `Date.now()` are modelled by an explicit millisecond
timestamp.  `toUTCString` is implemented in full (proleptic Gregorian,
epoch 1970-01-01); the host date parser is modelled for ISO
`YYYY-MM-DD` date strings (optionally followed by a `T`/space suffix),
the formats the modelled documents carry — anything else is an invalid
date, as the source's `isNaN(parsedDate.getTime())` guard expects. -/

/-- Civil date (year, month, day) of a day count since 1970-01-01. -/
def daysToCivil (days : Nat) : Nat × Nat × Nat :=
  let z := days + 719468
  let era := z / 146097
  let doe := z % 146097
  let yoe := (doe - doe / 1460 + doe / 36524 - doe / 146096) / 365
  let y := yoe + era * 400
  let doy := doe - (365 * yoe + yoe / 4 - yoe / 100)
  let mp := (5 * doy + 2) / 153
  let d := doy - (153 * mp + 2) / 5 + 1
  let m := if mp < 10 then mp + 3 else mp - 9
  (if m ≤ 2 then y + 1 else y, m, d)

/-- Day count since 1970-01-01 of a civil date (year ≥ 1970). -/
def civilToDays (y m d : Nat) : Nat :=
  let y' := if m ≤ 2 then y - 1 else y
  let era := y' / 400
  let yoe := y' % 400
  let mp := if 2 < m then m - 3 else m + 9
  let doy := (153 * mp + 2) / 5 + d - 1
  let doe := yoe * 365 + yoe / 4 - yoe / 100 + doy
  era * 146097 + doe - 719468

/-- Two-digit zero-padded decimal. -/
def pad2 (n : Nat) : String := if n < 10 then "0" ++ toString n else toString n

/-- Weekday name of a day count (1970-01-01 was a Thursday). -/
def weekdayName (days : Nat) : String :=
  [ "Sun", "Mon", "Tue", "Wed", "Thu", "Fri", "Sat" ].getD ((days + 4) % 7) ""

/-- Month name, 1-based. -/
def monthName (m : Nat) : String :=
  [ "Jan", "Feb", "Mar", "Apr", "May", "Jun", "Jul", "Aug", "Sep", "Oct", "Nov", "Dec" ].getD (m - 1) ""

/-- JS `Date.prototype.toUTCString` of a millisecond timestamp. -/
def toUTCString (ms : Nat) : String :=
  let days := ms / 86400000
  let secs := ms % 86400000 / 1000
  let c := daysToCivil days
  weekdayName days ++ ", " ++ pad2 c.2.2 ++ " " ++ monthName c.2.1 ++ " " ++ toString c.1 ++
    " " ++ pad2 (secs / 3600) ++ ":" ++ pad2 (secs % 3600 / 60) ++ ":" ++ pad2 (secs % 60) ++ " GMT"

/-- Decimal digit value. -/
def digitVal (c : Char) : Option Nat :=
  if '0' ≤ c && c ≤ '9' then some (c.toNat - 48) else none

/-- Days per month (1-based) of a year. -/
def daysInMonth (y m : Nat) : Nat :=
  if m = 2 then (if y % 4 = 0 && (y % 100 ≠ 0 || y % 400 = 0) then 29 else 28)
  else if m = 4 || m = 6 || m = 9 || m = 11 then 30
  else 31

/-- Models the host date parser on ISO `YYYY-MM-DD` date strings
(optionally with a time suffix, read as midnight): the millisecond
timestamp, or `none` for an invalid date. -/
def jsParseDate (s : String) : Option Nat :=
  match s.data with
  | y1 :: y2 :: y3 :: y4 :: '-' :: m1 :: m2 :: '-' :: d1 :: d2 :: rest =>
    match digitVal y1, digitVal y2, digitVal y3, digitVal y4,
        digitVal m1, digitVal m2, digitVal d1, digitVal d2 with
    | some a, some b, some c, some d, some e, some f, some g, some h =>
      let y := ((a * 10 + b) * 10 + c) * 10 + d
      let m := e * 10 + f
      let day := g * 10 + h
      if 1 ≤ m && m ≤ 12 && 1 ≤ day && day ≤ daysInMonth y m && 1970 ≤ y &&
          (rest.isEmpty || rest.head? = some ' ' || rest.head? = some 'T') then
        some (civilToDays y m day * 86400000)
      else none
    | _, _, _, _, _, _, _, _ => none
  | _ => none

/-- The `date ? new Date(date).toUTCString() : new Date().toUTCString()`
idiom of the simple strategies: an unparseable nonempty date string
formats as the invalid-date marker. -/
def pubDateFrom (date : Option String) (now : Nat) : String :=
  if jsTruthy date then
    match jsParseDate (date.getD "") with
    | some t => toUTCString t
    | none => "Invalid Date"
  else toUTCString now

/-- One extracted record (field `description` is the feed summary). -/
structure Article where
  title : String
  link : String
  description : String
  content : String
  pubDate : String
  guid : String
  author : Option String
  category : Option String
  image : Option String
deriving Repr, DecidableEq

/-! ## Simple extraction strategies

Each walks the nodes matched by the `articles` selector rule, extracts the
role fields, and keeps rows with a (long enough, for the generic strategy)
title.  None of these applies a cap to its result list.
-/

/-- Enumerate a list with indices starting at `n`. -/
def enumFrom : Nat → List α → List (Nat × α)
  | _, [] => []
  | n, x :: xs => (n, x) :: enumFrom (n + 1) xs

/-- ContentParser.generatePortfolioContent. -/
def generatePortfolioContent (title content : String) (image : Option String) : String :=
  "<h2>" ++ title ++ "</h2>" ++
    (match image with
      | some img =>
        "<img src=\"" ++ img ++ "\" alt=\"" ++ title ++
          "\" style=\"max-width: 100%; height: auto; margin: 10px 0;\"/>"
      | none => "") ++
    (if content ≠ "" then "<p>" ++ content ++ "</p>" else "")

/-- ContentParser.generateProductContent. -/
def generateProductContent (title content price : String) : String :=
  "<h2>" ++ title ++ "</h2>" ++
    (if price ≠ "" then "<p><strong>Price: " ++ price ++ "</strong></p>" else "") ++
    (if content ≠ "" then "<p>" ++ content ++ "</p>" else "")

/-- ContentParser.parseGenericContent: keeps rows whose title is longer
than 5 characters; no cap. -/
def parseGenericContent (p : ContentParser) (doc : DNode) (now : Nat) : List Article :=
  (dq doc p.siteInfo.selectors.articles).filterMap (fun el =>
    let title := extractText el p.siteInfo.selectors.title
    let content := extractText el p.siteInfo.selectors.content
    let link := extractLink p el p.siteInfo.selectors.link
    let date := extractDate el p.siteInfo.selectors.date
    if title ≠ "" && 5 < title.length then
      some { title := jsTrim title
             link := link
             description := generateSummary content 200
             content := content
             pubDate := pubDateFrom date now
             guid := generateGuid p.siteInfo.url (if link ≠ "" then link else title)
             author := none
             category := none
             image := none }
    else none)

/-- ContentParser.parseNewsContent: no cap. -/
def parseNewsContent (p : ContentParser) (doc : DNode) (now : Nat) : List Article :=
  (dq doc p.siteInfo.selectors.articles).filterMap (fun el =>
    let title := extractText el p.siteInfo.selectors.title
    let content := extractText el p.siteInfo.selectors.content
    let summary₀ := extractText el p.siteInfo.selectors.summary
    let link := extractLink p el p.siteInfo.selectors.link
    let date := extractDate el p.siteInfo.selectors.date
    if title ≠ "" then
      some { title := jsTrim title
             link := link
             description := if summary₀ ≠ "" then summary₀ else generateSummary content 150
             content := content
             pubDate := pubDateFrom date now
             guid := generateGuid p.siteInfo.url (if link ≠ "" then link else title)
             author := none
             category := some "News"
             image := none }
    else none)

/-- ContentParser.parseECommerceContent: no cap. -/
def parseECommerceContent (p : ContentParser) (doc : DNode) (now : Nat) : List Article :=
  (dq doc p.siteInfo.selectors.articles).filterMap (fun el =>
    let title := extractText el p.siteInfo.selectors.title
    let content := extractText el p.siteInfo.selectors.content
    let link := extractLink p el p.siteInfo.selectors.link
    let price := extractText el p.siteInfo.selectors.price
    if title ≠ "" then
      some { title := jsTrim title
             link := link
             description := (if content ≠ "" then content else "Product details") ++
               (if price ≠ "" then " - " ++ price else "")
             content := generateProductContent title content price
             pubDate := toUTCString now
             guid := generateGuid p.siteInfo.url (if link ≠ "" then link else title)
             author := none
             category := some "Product"
             image := none }
    else none)

/-- ContentParser.parseRepositoryContent: no cap. -/
def parseRepositoryContent (p : ContentParser) (doc : DNode) (now : Nat) : List Article :=
  (dq doc p.siteInfo.selectors.articles).filterMap (fun el =>
    let title := extractText el p.siteInfo.selectors.title
    let content := extractText el p.siteInfo.selectors.content
    let link := extractLink p el p.siteInfo.selectors.link
    let date := extractDate el p.siteInfo.selectors.date
    if title ≠ "" then
      some { title := jsTrim title
             link := link
             description := if content ≠ "" then content else title
             content := content
             pubDate := pubDateFrom date now
             guid := generateGuid p.siteInfo.url (if link ≠ "" then link else title)
             author := none
             category := some "Repository"
             image := none }
    else none)

/-- The non-Movable-Type body of ContentParser.parseBlogContent: no cap. -/
def parseBlogSimple (p : ContentParser) (doc : DNode) (now : Nat) : List Article :=
  (dq doc p.siteInfo.selectors.articles).filterMap (fun el =>
    let title := extractText el p.siteInfo.selectors.title
    let content := extractText el p.siteInfo.selectors.content
    let link := extractLink p el p.siteInfo.selectors.link
    let date := extractDate el p.siteInfo.selectors.date
    if title ≠ "" then
      some { title := jsTrim title
             link := link
             description := generateSummary content 200
             content := content
             pubDate := pubDateFrom date now
             guid := generateGuid p.siteInfo.url (if link ≠ "" then link else title)
             author := some (let a := extractText el p.siteInfo.selectors.author
               if a ≠ "" then a else "Unknown")
             category := none
             image := none }
    else none)

/-- The standard (non-Figma) body of ContentParser.parsePortfolioContent:
titles default to a numbered project name, capped at 20. -/
def parsePortfolioStandard (p : ContentParser) (doc : DNode) (now : Nat) : List Article :=
  ((enumFrom 0 (dq doc p.siteInfo.selectors.articles)).filterMap (fun ie =>
    let el := ie.2
    let title₀ := extractText el p.siteInfo.selectors.title
    let title := if title₀ ≠ "" then title₀ else "Project " ++ toString (ie.1 + 1)
    let content := extractText el p.siteInfo.selectors.content
    let link := extractLink p el p.siteInfo.selectors.link
    let image := extractImage p el p.siteInfo.selectors.image
    if title ≠ "" then
      some { title := jsTrim title
             link := link
             description := if jsTrim content ≠ "" then jsTrim content
               else "View details of " ++ title
             content := generatePortfolioContent title content image
             pubDate := toUTCString now
             guid := generateGuid p.siteInfo.url (if link ≠ "" then link else title)
             author := none
             category := none
             image := image }
    else none)).take 20

/-! ## Network oracle and the Figma embedded-data strategy

The two enrichment strategies call `fetch`.  The network is an explicit
oracle; `Except.error` models a rejected fetch (timeout, network error),
an unsuccessful response carries `ok = false`, and a JSON body the
response parser rejects is `none`.  A fetched HTML page arrives already
parsed, as the external document parser would hand it over.
-/

/-- One action of a Figma interaction. -/
structure FigAction where
  connectionURL : Option String

/-- One interaction of a Figma node. -/
structure FigInteraction where
  actions : List FigAction

/-- A node of the Figma JSON node graph (`type` of the source is `ntype`). -/
structure FigNode where
  interactions : Option (List FigInteraction)
  ntype : String
  characters : Option String

/-- The fetched Figma JSON document: `nodeById` in key insertion order. -/
structure FigmaDoc where
  nodeById : Option (List (String × FigNode))

/-- Response of the Figma JSON fetch. -/
structure JsonResp where
  ok : Bool
  status : Nat
  json : Option FigmaDoc

/-- Response of an article-page fetch. -/
structure PageResp where
  ok : Bool
  status : Nat
  body : DNode

/-- The network collaborator. -/
structure Net where
  fetchJson : String → Except String JsonResp
  fetchPage : String → Except String PageResp

/-- The suffix just after the first occurrence of the needle. -/
def findAfter (needle : List Char) : List Char → Option (List Char)
  | [] => if needle.isEmpty then some [] else none
  | c :: cs =>
    if strStartsList needle (c :: cs) then some ((c :: cs).drop needle.length)
    else findAfter needle cs

/-- The suffix just after the first `href="` that is not preceded by a `>`. -/
def scanHref : List Char → Option (List Char)
  | [] => none
  | c :: cs =>
    if c = '>' then none
    else if strStartsList "href=\"".data (c :: cs) then some ((c :: cs).drop 6)
    else scanHref cs

/-- Models the regex match
`html.match(/"preload"[^>]*href="([^"]*\/_json\/[^"]*\.json)"/)` for
markup with a single preload link: after the first occurrence of the
quoted word preload, the first following `href="` with no `>` in between
opens the capture, which runs to the next quote and is accepted when it
contains `/_json/` and ends in `.json`. -/
def figmaJsonUrl (html : String) : Option String :=
  match findAfter "\"preload\"".data html.data with
  | none => none
  | some rest =>
    match scanHref rest with
    | none => none
    | some afterHref =>
      let cap := afterHref.takeWhile (fun c => c ≠ '"')
      if (afterHref.dropWhile (fun c => c ≠ '"')).isEmpty then none
      else if strContainsList "/_json/".data cap &&
          strStartsList ".json".data.reverse cap.reverse then
        some (String.mk cap)
      else none

/-- ContentParser.generateFigmaProjectContent (a multi-line template
literal; the leading and trailing indentation is part of the string). -/
def generateFigmaProjectContent (p : ContentParser) (projectName projectUrl : String) : String :=
  "\n      <h2>" ++ capitalize projectName ++ " - Design Project</h2>\n" ++
  "      <p>This project showcases innovative design work and creative problem-solving approaches.</p>\n" ++
  "      <h3>Key Highlights:</h3>\n" ++
  "      <ul>\n" ++
  "        <li>User-centered design approach</li>\n" ++
  "        <li>Innovative visual solutions</li>\n" ++
  "        <li>Comprehensive research and testing</li>\n" ++
  "        <li>Modern, clean aesthetic</li>\n" ++
  "      </ul>\n" ++
  "      <p><a href=\"" ++ p.baseUrl ++ projectUrl ++ "\">View full project details →</a></p>\n    "

/-- One interaction-signal step of the Figma node walk: state is the
seen-key set and the article list. -/
def figmaActionStep (p : ContentParser) (now : Nat) (nodeId : String)
    (st : List String × List Article) (inter : FigInteraction) : List String × List Article :=
  match inter.actions.head? with
  | none => st
  | some action =>
    match action.connectionURL with
    | none => st
    | some cu =>
      if jsStartsWith cu "/" && !strContains cu "http" && 1 < cu.length then
        let projectName := replaceFirst (replaceFirst cu "/" "") "-" " "
        let projectKey := "project-" ++ projectName
        if projectName ≠ "" && !st.1.contains projectKey && projectName.length < 30 then
          (projectKey :: st.1, st.2 ++
            [{ title := capitalize projectName ++ " - Portfolio Project"
               link := p.baseUrl ++ cu
               description := "Explore the " ++ projectName ++
                 " project featuring innovative design work, UX research, and creative solutions."
               content := generateFigmaProjectContent p projectName cu
               pubDate := toUTCString now
               guid := "figma-project-" ++ nodeId ++ "-" ++ toString now
               author := none
               category := some "Design"
               image := none }])
        else st
      else st

/-- The text-signal step of the Figma node walk. -/
def figmaTextStep (p : ContentParser) (now : Nat) (nodeId : String) (node : FigNode)
    (st : List String × List Article) : List String × List Article :=
  if node.ntype = "TEXT" && jsTruthy node.characters then
    let text := jsTrim ((node.characters).getD "")
    if 30 < text.length && text.length < 200 &&
        (strContains (lowerStr text) "design" || strContains (lowerStr text) "project" ||
         strContains (lowerStr text) "developed" || strContains (lowerStr text) "led") then
      let textKey := "text-" ++ String.mk (text.data.take 20)
      if !st.1.contains textKey then
        let title := if 60 < text.length then String.mk (text.data.take 57) ++ "..." else text
        (textKey :: st.1, st.2 ++
          [{ title := jsTrim (replaceAllChar title '\n' " ")
             link := p.siteInfo.url
             description := jsTrim (replaceAllChar text '\n' " ")
             content := "<p>" ++ replaceAllChar text '\n' "</p><p>" ++ "</p>"
             pubDate := toUTCString now
             guid := "figma-text-" ++ nodeId ++ "-" ++ toString now
             author := none
             category := some "Design"
             image := none }])
      else st
    else st
  else st

/-- One node of the Figma walk: interaction signals, then the text signal. -/
def figmaNodeStep (p : ContentParser) (now : Nat)
    (st : List String × List Article) (kv : String × FigNode) : List String × List Article :=
  let st₁ := match kv.2.interactions with
    | none => st
    | some inters => inters.foldl (figmaActionStep p now kv.1) st
  figmaTextStep p now kv.1 kv.2 st₁

/-- The walk over `jsonData.nodeById`, in key order. -/
def figmaWalk (p : ContentParser) (jd : FigmaDoc) (now : Nat) : List Article :=
  match jd.nodeById with
  | none => []
  | some nodes => (nodes.foldl (figmaNodeStep p now) ([], [])).2

/-- ContentParser.parseFigmaBasedSite: one JSON fetch; every failure mode
(no preload URL in the markup, a rejected fetch, a non-success status, a
malformed payload, an empty walk) falls back to the generic strategy; a
nonempty walk is capped at 10. -/
def parseFigmaBasedSite (p : ContentParser) (doc : DNode) (html : String) (now : Nat)
    (net : Net) : List Article :=
  match figmaJsonUrl html with
  | none => parseGenericContent p doc now
  | some m =>
    match net.fetchJson (p.baseUrl ++ m) with
    | .error _ => parseGenericContent p doc now
    | .ok resp =>
      if !resp.ok then parseGenericContent p doc now
      else
        match resp.json with
        | none => parseGenericContent p doc now
        | some jd =>
          let articles := figmaWalk p jd now
          if 0 < articles.length then articles.take 10 else parseGenericContent p doc now

/-- ContentParser.parsePortfolioContent: dispatch to the Figma strategy
when the markup advertises an embedded JSON payload. -/
def parsePortfolioContent (p : ContentParser) (doc : DNode) (html : String) (now : Nat)
    (net : Net) : List Article :=
  if strContains html "_json/" && strContains html ".json" then
    parseFigmaBasedSite p doc html now net
  else parsePortfolioStandard p doc now

/-! ## The Movable Type archive-enrichment strategy

Two structural zones (`.entry-asset` entries, then the `#homepage
.module-list-item` recent list) are merged with link de-duplication, the
first five records flagged as needing full content are enriched by one
secondary fetch each, and the merged list is capped at 20.
-/

/-- Selector `.entry-asset`. -/
def entryAssetSel : Sel := [[cS "entry-asset"]]

/-- Selector `.asset-name.entry-title a, .asset-name.entry-title`. -/
def mtTitleSel : Sel := [[ccS "asset-name" "entry-title", tS "a"], [ccS "asset-name" "entry-title"]]

/-- Selector `.asset-content, .asset-body, .entry-content`. -/
def mtContentSel : Sel := [[cS "asset-content"], [cS "asset-body"], [cS "entry-content"]]

/-- Selector `.asset-date, .published, time`. -/
def mtDateSel : Sel := [[cS "asset-date"], [cS "published"], [tS "time"]]

/-- Selector `#homepage .module-list-item`. -/
def homepageItemsSel : Sel := [[idS "homepage", cS "module-list-item"]]

/-- Selector `span`. -/
def spanSel : Sel := [[tS "span"]]

/-- Publication date of a `.entry-asset` entry. -/
def mtEntryDate (el : DNode) (now : Nat) : String :=
  let dateEl := findQ el mtDateSel
  if dateEl.isEmpty then toUTCString now
  else
    let dateText := match selAttr dateEl "datetime" with
      | some v => if v ≠ "" then v else selText dateEl
      | none => selText dateEl
    if dateText ≠ "" then
      match jsParseDate dateText with
      | some t => toUTCString t
      | none => toUTCString now
    else toUTCString now

/-- Title of a `.entry-asset` entry. -/
def mtEntryTitle (el : DNode) : String :=
  let titleEl := findQ el mtTitleSel
  if titleEl.isEmpty then "" else jsTrim (selText titleEl)

/-- Resolved link of a `.entry-asset` entry. -/
def mtEntryLink (p : ContentParser) (el : DNode) : String :=
  let titleEl := findQ el mtTitleSel
  if selIs titleEl aSel then resolveUrl p (selAttr titleEl "href") else p.siteInfo.url

/-- Record built from a `.entry-asset` entry, with its
needs-full-content flag. -/
def mtEntryArticle (p : ContentParser) (now : Nat) (el : DNode) : Article × Bool :=
  let contentEl := findQ el mtContentSel
  let content := if contentEl.isEmpty then "" else (selHtml contentEl).getD ""
  let title := mtEntryTitle el
  ({ title := title
     link := mtEntryLink p el
     description := generateSummary (if content ≠ "" then selInnerText contentEl else title) 200
     content := if content ≠ "" then content else "<p>" ++ title ++ "</p>"
     pubDate := mtEntryDate el now
     guid := generateGuid p.siteInfo.url (mtEntryLink p el)
     author := some "阮一峰"
     category := some "Blog"
     image := none },
   content = "" || content.length < 500)

/-- Title of a recent-list item (text of all its links). -/
def mtListTitle (el : DNode) : String := jsTrim (selText (findQ el aSel))

/-- Resolved link of a recent-list item. -/
def mtListLink (p : ContentParser) (el : DNode) : String :=
  resolveUrl p (selAttr (findQ el aSel) "href")

/-- Publication date of a recent-list item. -/
def mtListDate (el : DNode) (now : Nat) : String :=
  match (findQ el spanSel).head? with
  | none => toUTCString now
  | some sp =>
    let dateText := jsTrim (replaceFirst (textOf sp) "»" "")
    if dateText ≠ "" then
      match jsParseDate (dateText ++ " 00:00:00") with
      | some t => toUTCString t
      | none => toUTCString now
    else toUTCString now

/-- Record built from a recent-list item; always flagged for enrichment. -/
def mtListArticle (p : ContentParser) (now : Nat) (el : DNode) : Article × Bool :=
  let title := mtListTitle el
  ({ title := title
     link := mtListLink p el
     description := "阮一峰的网络日志：" ++ title
     content := "<h2>" ++ title ++ "</h2><p>这是阮一峰网络日志的一篇文章。</p>"
     pubDate := mtListDate el now
     guid := generateGuid p.siteInfo.url (mtListLink p el)
     author := some "阮一峰"
     category := some "Blog"
     image := none },
   true)

/-- The de-duplicating merge loop shared by the two zones: a guarded item
is appended only when its link key is unseen; first occurrence wins. -/
def seenFold {α : Type} : List (Bool × String × α) →
    List String × List α → List String × List α
  | [], st => st
  | (g, k, it) :: rest, st =>
    seenFold rest (if g && !st.1.contains k then (k :: st.1, st.2 ++ [it]) else st)

/-- The guarded zone-1 items of a document. -/
def mtPairs1 (p : ContentParser) (doc : DNode) (now : Nat) :
    List (Bool × String × (Article × Bool)) :=
  (docSelect doc entryAssetSel).map (fun el =>
    (mtEntryTitle el ≠ "", mtEntryLink p el, mtEntryArticle p now el))

/-- The guarded zone-2 items of a document. -/
def mtPairs2 (p : ContentParser) (doc : DNode) (now : Nat) :
    List (Bool × String × (Article × Bool)) :=
  (docSelect doc homepageItemsSel).map (fun el =>
    (!(findQ el aSel).isEmpty && mtListTitle el ≠ "" && !strContains (mtListTitle el) "更多文章",
     mtListLink p el, mtListArticle p now el))

/-- Both zones merged with link de-duplication, pre-enrichment. -/
def mtCollect (p : ContentParser) (doc : DNode) (now : Nat) : List (Article × Bool) :=
  (seenFold (mtPairs1 p doc now ++ mtPairs2 p doc now) ([], [])).2

/-! ### The secondary fetch for full article bodies -/

/-- The ordered content-selector candidates `.asset-body`,
`.entry-content`, `.asset-content`, `#main .asset-body`,
`#content .entry-content`. -/
def ruanContentSels : List Sel :=
  [[[cS "asset-body"]], [[cS "entry-content"]], [[cS "asset-content"]],
   [[idS "main", cS "asset-body"]], [[idS "content", cS "entry-content"]]]

/-- Selector `h1, .asset-name, .entry-title`. -/
def ruanTitleSel : Sel := [[tS "h1"], [cS "asset-name"], [cS "entry-title"]]

/-- Selector `p`. -/
def pSel : Sel := [[tS "p"]]

/-- Children of a node. -/
def childrenOf : DNode → List DNode
  | .txt _ => []
  | .el _ _ cs => cs

/-- First selector candidate yielding a nonempty inner fragment. -/
def firstContentFrag (page : DNode) : List Sel → Option (List DNode)
  | [] => none
  | s :: rest =>
    match (docSelect page s).head? with
    | some e => if innerHtml e ≠ "" then some (childrenOf e) else firstContentFrag page rest
    | none => firstContentFrag page rest

/-- JS `Array.join` with a newline. -/
def joinNL : List String → String
  | [] => ""
  | x :: rest => rest.foldl (fun a b => a ++ "\n" ++ b) x

/-- Replace or append one attribute, as the cheerio `attr` setter does. -/
def setAttr : List (String × String) → String → String → List (String × String)
  | [], k, v => [(k, v)]
  | (k', v') :: rest, k, v =>
    if k' == k then (k, v) :: rest else (k', v') :: setAttr rest k v

/-- The attribute rewriting of cleanRuanyifengContent on one element:
relative image sources gain the blog host (and a sizing style), root
relative anchors gain the host. -/
def fixAttrsFor (t : String) (a : List (String × String)) : List (String × String) :=
  if t = "img" then
    let a₁ := match attrLookup a "src" with
      | some src =>
        if src ≠ "" && !jsStartsWith src "http" then
          if jsStartsWith src "/" then setAttr a "src" ("https://www.ruanyifeng.com" ++ src)
          else setAttr a "src" ("https://www.ruanyifeng.com/blog/" ++ src)
        else a
      | none => a
    setAttr a₁ "style" "max-width: 100%; height: auto;"
  else if t = "a" then
    match attrLookup a "href" with
    | some href =>
      if href ≠ "" && !jsStartsWith href "http" && !jsStartsWith href "mailto" &&
          jsStartsWith href "/" then
        setAttr a "href" ("https://www.ruanyifeng.com" ++ href)
      else a
    | none => a
  else a

/-- Map the attribute rewriting over a tree. -/
def fixImgA : DNode → DNode
  | .txt s => .txt s
  | .el t a cs => .el t (fixAttrsFor t a) (go cs)
where go : List DNode → List DNode
  | [] => []
  | c :: cs => fixImgA c :: go cs

/-- Remove every descendant matching one of the (single-compound)
removal selectors. -/
def cleanNode (sel : Sel) : DNode → DNode
  | .txt s => .txt s
  | .el t a cs => .el t a (go cs)
where go : List DNode → List DNode
  | [] => []
  | c :: rest =>
    if sel.any (fun ch => match ch with
      | [s] => matchesSimple c s
      | _ => false) then go rest
    else cleanNode sel c :: go rest

/-- Removal selector `.asset-footer, .entry-footer, .comments, #comments,
.trackbacks, .related-posts`. -/
def ruanRemoveSel1 : Sel :=
  [[cS "asset-footer"], [cS "entry-footer"], [cS "comments"], [idS "comments"],
   [cS "trackbacks"], [cS "related-posts"]]

/-- Removal selector `script, style, .advertisement`. -/
def ruanRemoveSel2 : Sel := [[tS "script"], [tS "style"], [cS "advertisement"]]

/-- ContentParser.cleanRuanyifengContent on a fragment: remove boilerplate
and scripts, rewrite image and anchor attributes, and render the document
shell cheerio's `$.html()` produces around a loaded fragment. -/
def cleanRuanyifengContent (frag : List DNode) : String :=
  let cleaned := childrenOf (cleanNode ruanRemoveSel2
    (cleanNode ruanRemoveSel1 (DNode.el "root" [] frag)))
  let fixed := cleaned.map fixImgA
  "<html><head></head><body>" ++ serializeList fixed ++ "</body></html>"

/-- ContentParser.fetchRuanyifengArticleContent over the oracle: a
rejected fetch, a non-success status, no usable content selector and no
qualifying paragraphs, or a too-short body, all yield `null`; otherwise
the cleaned full body.  All throws are caught inside, so the result is
always a value. -/
def fetchRuanyifengArticleContent (net : Net) (articleUrl : String) : Option String :=
  match net.fetchPage articleUrl with
  | .error _ => none
  | .ok resp =>
    if !resp.ok then none
    else
      let page := resp.body
      match firstContentFrag page ruanContentSels with
      | some frag =>
        if (serializeList frag).length < 100 then none
        else some (cleanRuanyifengContent frag)
      | none =>
        let title := match (docSelect page ruanTitleSel).head? with
          | some n => jsTrim (textOf n)
          | none => ""
        let paras := (docSelect page pSel).filterMap (fun e =>
          let t := jsTrim (textOf e)
          if 20 < t.length && !strContains t "留言" && !strContains t "Email" then some t
          else none)
        if paras.isEmpty then none
        else
          let c := "<h2>" ++ title ++ "</h2>\n" ++
            joinNL ((paras.take 10).map (fun t => "<p>" ++ t ++ "</p>"))
          if c.length < 100 then none
          else
            some (cleanRuanyifengContent
              ([DNode.el "h2" [] [DNode.txt title], DNode.txt "\n"] ++
                (((paras.take 10).map (fun t => DNode.el "p" [] [DNode.txt t])).intersperse
                  (DNode.txt "\n"))))

/-- Enrichment of one flagged record: a successful secondary fetch
replaces content and description; a failed one leaves the record
untouched. -/
def mtEnrichOne (net : Net) (a : Article) : Article :=
  match fetchRuanyifengArticleContent net a.link with
  | some c => { a with content := c, description := generateSummary (stripTags c) 300 }
  | none => a

/-- Enrichment pass: the first `budget` flagged records are enriched, in
order; all flags are dropped. -/
def mtEnrich (net : Net) : List (Article × Bool) → Nat → List Article
  | [], _ => []
  | (a, flag) :: rest, budget =>
    if flag && 0 < budget then mtEnrichOne net a :: mtEnrich net rest (budget - 1)
    else a :: mtEnrich net rest budget

/-- ContentParser.parseMovableTypeBlog: merge the two zones with link
de-duplication, enrich up to five short records, cap at 20. -/
def parseMovableTypeBlog (p : ContentParser) (doc : DNode) (now : Nat) (net : Net) :
    List Article :=
  (mtEnrich net (mtCollect p doc now) 5).take 20

/-- ContentParser.parseBlogContent: the Movable Type platform gets the
archive-enrichment strategy, every other blog the simple one. -/
def parseBlogContent (p : ContentParser) (doc : DNode) (now : Nat) (net : Net) :
    List Article :=
  if p.siteInfo.platform = "movable-type" then parseMovableTypeBlog p doc now net
  else parseBlogSimple p doc now

/-- ContentParser.parseContent: the strategy dispatch on the detected
site type. -/
def parseContent (p : ContentParser) (doc : DNode) (html : String) (now : Nat) (net : Net) :
    List Article :=
  match p.siteInfo.stype with
  | "portfolio" => parsePortfolioContent p doc html now net
  | "blog" => parseBlogContent p doc now net
  | "news" => parseNewsContent p doc now
  | "ecommerce" => parseECommerceContent p doc now
  | "repository" => parseRepositoryContent p doc now
  | _ => parseGenericContent p doc now

/-- The extraction entry point as the route handler runs it: construct the
parser (evaluating the origin), then parse; a site URL the URL parser
rejects errors before any strategy runs. -/
def extractRun (si : SiteInfo) (doc : DNode) (html : String) (now : Nat) (net : Net) :
    Except String (List Article) :=
  match ContentParser.make si with
  | .error e => .error e
  | .ok p => .ok (parseContent p doc html now net)

/-- A concrete always-failing network, for witnesses. -/
def nullNet : Net :=
  ⟨fun _ => .error "fetch failed", fun _ => .error "fetch failed"⟩

/-- A news classification result with the news detector's rules. -/
def newsSite : SiteInfo :=
  ⟨"https://news-site.com", "news", "news", 90, newsRules, ["structured-data"]⟩

/-- Its parser (origin equals the site URL). -/
def newsParser : ContentParser := ⟨newsSite, "https://news-site.com"⟩

/-- One news item matched by the news rules. -/
def newsItem : DNode :=
  .el "article" [] [.el "h1" [] [.txt "Breaking news item"],
    .el "a" [("href", "/a")] [.txt "more"]]

/-- A page with 21 news items. -/
def newsDoc : DNode := .el "html" [] [.el "body" [] (List.replicate 21 newsItem)]

/-- A generic classification result with the generic fallback rules. -/
def genSite : SiteInfo :=
  ⟨"https://example.com", "generic", "unknown", 10, genericRules, ["generic-fallback"]⟩

/-- Its parser. -/
def genParser : ContentParser := ⟨genSite, "https://example.com"⟩

/-- An article node; two copies share the same title and link. -/
def dupItem : DNode :=
  .el "article" [] [.el "h1" [] [.txt "Duplicate title"],
    .el "a" [("href", "/same")] [.txt "x"]]

/-- A page carrying two identical articles. -/
def dupDoc : DNode := .el "html" [] [.el "body" [] [dupItem, dupItem]]

/-- A Movable Type blog classification (rules as the generic detector
would hand them out). -/
def mtSite : SiteInfo :=
  ⟨"https://www.ruanyifeng.com/blog/", "blog", "movable-type", 70, genericRules, []⟩

/-- Its parser. -/
def mtParser : ContentParser := ⟨mtSite, "https://www.ruanyifeng.com"⟩

/-- A page with one generic article but neither Movable Type zone. -/
def c5Doc : DNode :=
  .el "html" [] [.el "body" []
    [.el "article" [] [.el "h1" [] [.txt "Interesting post"],
      .el "a" [("href", "/post")] [.txt "read"]]]]

/-- A portfolio classification for the embedded-JSON site. -/
def figmaSite : SiteInfo :=
  ⟨"https://jasonspielman.com", "portfolio", "portfolio", 60, portfolioRules, []⟩

/-- Its parser. -/
def figmaParser : ContentParser := ⟨figmaSite, "https://jasonspielman.com"⟩

/-- Markup advertising the embedded JSON payload via a preload link. -/
def figmaHtml : String :=
  "<html><head><link rel=\"preload\" href=\"/_json/site.json\"></head><body></body></html>"

/-- The document of that markup. -/
def figmaTestDoc : DNode :=
  .el "html" [] [.el "head" []
    [.el "link" [("rel", "preload"), ("href", "/_json/site.json")] []], .el "body" [] []]

/-- The fetched JSON: one node whose interaction targets a same-origin
project path. -/
def figmaJson : FigmaDoc :=
  ⟨some [("n1", ⟨some [⟨[⟨some "/project-one"⟩]⟩], "FRAME", none⟩)]⟩

/-- A network answering the JSON fetch successfully. -/
def figmaNet : Net :=
  ⟨fun _ => .ok ⟨true, 200, some figmaJson⟩, fun _ => .error "no page fetches"⟩

/-- The WordPress scenario page: generator meta `WordPress 6.0` and one
article-like node with an entry-title class, but no `wp-content` marker. -/
def wpPage : DNode :=
  .el "html" []
    [.el "head" [] [.el "meta" [("name", "generator"), ("content", "WordPress 6.0")] [],
      .el "title" [] [.txt "My Blog"]],
     .el "body" [] [.el "article" [("class", "post")]
       [.el "h2" [("class", "entry-title")] [.txt "Blog Post"],
        .el "div" [("class", "entry-content")] [.txt "Content here"]]]]

/-- The raw markup of that page. -/
def wpHtml : String :=
  "<html><head><meta name=\"generator\" content=\"WordPress 6.0\"><title>My Blog</title></head><body><article class=\"post\"><h2 class=\"entry-title\">Blog Post</h2><div class=\"entry-content\">Content here</div></article></body></html>"

/-- A network whose JSON fetch returns a non-success status. -/
def net404 : Net := ⟨fun _ => .ok ⟨false, 404, none⟩, fun _ => .error "no"⟩

/-- A network whose JSON fetch succeeds with a payload the JSON parser
rejects. -/
def netBadJson : Net := ⟨fun _ => .ok ⟨true, 200, none⟩, fun _ => .error "no"⟩

/-- A network whose JSON fetch succeeds with an empty node graph. -/
def netEmptyJson : Net :=
  ⟨fun _ => .ok ⟨true, 200, some ⟨some []⟩⟩, fun _ => .error "no"⟩

/-- The siteInfo the 40-point WordPress classification would carry. -/
def wpSite40 : SiteInfo :=
  ⟨"https://example-blog.com", "blog", "wordpress", 40, emptyRules, ["wp-generator-meta"]⟩

/-- Its parser. -/
def wpParser40 : ContentParser := ⟨wpSite40, "https://example-blog.com"⟩

/-- The identity-carrying fields of a record that enrichment never
touches. -/
def recordKey (a : Article) : String × String × String × String :=
  (a.title, a.link, a.guid, a.pubDate)

/-- A network whose page fetch returns a non-success response. -/
def pageNet404 : Net :=
  ⟨fun _ => .error "no json", fun _ => .ok ⟨false, 404, .el "html" [] []⟩⟩

/-- A concrete record awaiting enrichment. -/
def mtProbeArticle : Article :=
  ⟨"t", "https://www.ruanyifeng.com/blog/x.html", "d", "<p>t</p>", "Thu, 01 Jan 1970 00:00:00 GMT",
    "rssos-0000000000000000", some "阮一峰", some "Blog", none⟩

/-- A record with its clock-dependent fields erased. -/
def stableProj (a : Article) : Article := { a with pubDate := "", guid := "" }

def stRel (s₁ s₂ : List String × List Article) : Prop :=
  s₁.1 = s₂.1 ∧ s₁.2.map stableProj = s₂.2.map stableProj

def pairRel (x y : Article × Bool) : Prop :=
  stableProj x.1 = stableProj y.1 ∧ x.2 = y.2

def entryRel (e₁ e₂ : Bool × String × (Article × Bool)) : Prop :=
  e₁.1 = e₂.1 ∧ e₁.2.1 = e₂.2.1 ∧ pairRel e₁.2.2 e₂.2.2

/-! ## Theorems -/

/-- C1: the claim's guarantee is right and the code breaks it: the
constructor registers `this.detectBlogger` among the detectors, but no
such method exists on the class, so the loop invokes `undefined` and
classify throws a TypeError for every document and origin URL, instead of
returning the guaranteed non-null fallback result. -/
theorem detectSiteType_always_raises (doc : DNode) (html url : String) :
    detectSiteType doc html url
      = Except.error "TypeError: Cannot read properties of undefined (reading call)" := by
  simp [detectSiteType, siteDetectors, runDetectors]

/-- Witness for C1 at a concrete empty document. -/
theorem detectSiteType_always_raises_witness :
    detectSiteType (DNode.el "html" [] []) "<html></html>" "https://example.com"
      = Except.error "TypeError: Cannot read properties of undefined (reading call)" :=
  detectSiteType_always_raises (DNode.el "html" [] []) "<html></html>" "https://example.com"

theorem coordStep_conf_ge_self (si : SiteInfo) (r : DetectorResult) :
    si.confidence ≤ (coordStep si r).confidence := by
  unfold coordStep
  by_cases h : si.confidence < r.confidence
  · simp [h, assignResult]; omega
  · simp [h]

theorem coordStep_conf_ge_cand (si : SiteInfo) (r : DetectorResult) :
    r.confidence ≤ (coordStep si r).confidence := by
  unfold coordStep
  by_cases h : si.confidence < r.confidence
  · simp [h, assignResult]
  · simp [h]; omega

theorem keepBest_conf_mono (rs : List DetectorResult) (si : SiteInfo) :
    si.confidence ≤ (keepBest si rs).confidence := by
  induction rs generalizing si with
  | nil => simp [keepBest]
  | cons r rest ih =>
    have h1 := coordStep_conf_ge_self si r
    have h2 := ih (coordStep si r)
    calc si.confidence ≤ (coordStep si r).confidence := h1
      _ ≤ (keepBest (coordStep si r) rest).confidence := h2

/-- C6: the coordinator replaces the running best only on a strictly
greater confidence (an equal confidence keeps the earlier-registered
candidate), and the kept result's confidence dominates every candidate's. -/
theorem coordinator_best_policy :
    (∀ si r, r.confidence ≤ si.confidence → coordStep si r = si) ∧
    (∀ si r, si.confidence < r.confidence → coordStep si r = assignResult si r) ∧
    (∀ si rs, ∀ r ∈ rs, r.confidence ≤ (keepBest si rs).confidence) := by
  refine ⟨?_, ?_, ?_⟩
  · intro si r h
    unfold coordStep
    simp [Nat.not_lt.mpr h]
  · intro si r h
    unfold coordStep
    simp [h]
  · intro si rs
    induction rs generalizing si with
    | nil => intro r h; simp at h
    | cons x rest ih =>
      intro r h
      rcases List.mem_cons.mp h with h1 | h2
      · subst h1
        calc r.confidence ≤ (coordStep si r).confidence := coordStep_conf_ge_cand si r
          _ ≤ (keepBest (coordStep si r) rest).confidence := keepBest_conf_mono rest _
      · exact ih (coordStep si x) r h2

/-- Witness for C6: the tie is kept, the strict improvement replaces, and
the kept confidence dominates, at concrete candidates. -/
theorem coordinator_best_policy_witness :
    coordStep (initialSiteInfo "https://a.com")
        ⟨"generic", "unknown", 0, emptyRules, []⟩ = initialSiteInfo "https://a.com" ∧
    coordStep (initialSiteInfo "https://a.com")
        ⟨"generic", "unknown", 10, genericRules, ["generic-fallback"]⟩
      = assignResult (initialSiteInfo "https://a.com")
          ⟨"generic", "unknown", 10, genericRules, ["generic-fallback"]⟩ ∧
    (⟨"generic", "unknown", 10, genericRules, ["generic-fallback"]⟩ : DetectorResult).confidence
      ≤ (keepBest (initialSiteInfo "https://a.com")
          [⟨"generic", "unknown", 10, genericRules, ["generic-fallback"]⟩]).confidence := by
  refine ⟨?_, ?_, ?_⟩
  · exact coordinator_best_policy.1 _ _ (by decide)
  · exact coordinator_best_policy.2.1 _ _ (by decide)
  · exact coordinator_best_policy.2.2 _ _ _ (List.mem_singleton.mpr rfl)

/-- C10: constructing a ContentParser evaluates `new URL(siteInfo.url).origin`
first, so a site URL the URL parser rejects throws before any strategy
runs: the whole extraction errors identically for every document, clock
and network. -/
theorem contentParser_make_invalid_url (si : SiteInfo)
    (h : urlOrigin si.url = none) :
    ContentParser.make si = Except.error "TypeError: Invalid URL" ∧
    ∀ doc html now net, extractRun si doc html now net
      = Except.error "TypeError: Invalid URL" := by
  constructor
  · unfold ContentParser.make
    rw [h]
  · intro doc html now net
    unfold extractRun ContentParser.make
    rw [h]

/-- Witness for C10 at a concrete unparseable URL. -/
theorem contentParser_make_invalid_url_witness :
    urlOrigin (initialSiteInfo "not a url").url = none ∧
    ContentParser.make (initialSiteInfo "not a url")
      = Except.error "TypeError: Invalid URL" ∧
    extractRun (initialSiteInfo "not a url") (DNode.el "html" [] []) "" 0 nullNet
      = Except.error "TypeError: Invalid URL" := by
  refine ⟨by decide, ?_, ?_⟩
  · exact (contentParser_make_invalid_url (initialSiteInfo "not a url") (by decide)).1
  · exact (contentParser_make_invalid_url (initialSiteInfo "not a url") (by decide)).2
      (DNode.el "html" [] []) "" 0 nullNet

/-! ### Concrete fixtures -/

/-! ### C4: the caps -/

/-- Counterexample for C4: a news page with 21 matching items yields 21
records — the news strategy applies no cap at all, so the claimed bound
of 20 for every archetype strategy fails. -/
theorem parseContent_news_exceeds_cap :
    20 < (parseContent newsParser newsDoc "" 0 nullNet).length := by decide

/-- C4 as amended: only the standard portfolio path and the Movable Type
strategy cap at 20, and the Figma embedded-data path caps at 10 when its
walk produced the records; the news, simple-blog, ecommerce, repository
and generic strategies are unbounded. -/
theorem extract_caps_amended :
    (∀ p doc now, (parsePortfolioStandard p doc now).length ≤ 20) ∧
    (∀ p doc now net, (parseMovableTypeBlog p doc now net).length ≤ 20) ∧
    (∀ p doc html now net m resp jd,
      figmaJsonUrl html = some m →
      net.fetchJson (p.baseUrl ++ m) = Except.ok resp →
      resp.ok = true →
      resp.json = some jd →
      0 < (figmaWalk p jd now).length →
      (parseFigmaBasedSite p doc html now net).length ≤ 10) := by
  refine ⟨?_, ?_, ?_⟩
  · intro p doc now
    unfold parsePortfolioStandard
    exact List.length_take_le 20 _
  · intro p doc now net
    unfold parseMovableTypeBlog
    exact List.length_take_le 20 _
  · intro p doc html now net m resp jd h1 h2 h3 h4 h5
    unfold parseFigmaBasedSite
    simp only [h1, h2, h3, h4, Bool.not_true, Bool.false_eq_true, if_false]
    rw [if_pos h5]
    exact List.length_take_le 10 _

/-- Witness for C4's amended caps at concrete inputs. -/
theorem extract_caps_amended_witness :
    (parsePortfolioStandard figmaParser figmaTestDoc 0).length ≤ 20 ∧
    (parseMovableTypeBlog mtParser c5Doc 0 nullNet).length ≤ 20 ∧
    (parseFigmaBasedSite figmaParser figmaTestDoc figmaHtml 0 figmaNet).length ≤ 10 := by
  refine ⟨extract_caps_amended.1 _ _ _, extract_caps_amended.2.1 _ _ _ _, ?_⟩
  exact extract_caps_amended.2.2 figmaParser figmaTestDoc figmaHtml 0 figmaNet
    "/_json/site.json" ⟨true, 200, some figmaJson⟩ figmaJson
    (by decide) rfl rfl rfl (by decide)

/-! ### C3: identifier stability and de-duplication -/

/-- Counterexample for C3: the generic strategy performs no link
de-duplication, so a page whose two article nodes share one resolved link
emits two records with the same link and the same identifier — duplicates
are not suppressed outside the Movable Type strategy. -/
theorem parseGeneric_duplicate_identifiers :
    (parseContent genParser dupDoc "" 0 nullNet).length = 2 ∧
    ((parseContent genParser dupDoc "" 0 nullNet).map Article.guid)[0]?
      = ((parseContent genParser dupDoc "" 0 nullNet).map Article.guid)[1]? ∧
    ((parseContent genParser dupDoc "" 0 nullNet).map Article.link)[0]?
      = ((parseContent genParser dupDoc "" 0 nullNet).map Article.link)[1]? := by
  refine ⟨by decide, rfl, rfl⟩

theorem seenFold_key_inv {α : Type} (keyOf : α → String) :
    ∀ (l : List (Bool × String × α)) (st : List String × List α),
    (∀ e ∈ l, keyOf e.2.2 = e.2.1) →
    (∀ a ∈ st.2, keyOf a ∈ st.1) →
    (st.2.map keyOf).Nodup →
    ((seenFold l st).2.map keyOf).Nodup ∧
      ∀ a ∈ (seenFold l st).2, keyOf a ∈ (seenFold l st).1 := by
  intro l
  induction l with
  | nil => intro st _ h2 h3; exact ⟨h3, h2⟩
  | cons e rest ih =>
    intro st hl hmem hnd
    obtain ⟨g, k, it⟩ := e
    have hk : keyOf it = k := hl _ (List.mem_cons_self _ _)
    show ((seenFold rest _).2.map keyOf).Nodup ∧ _
    by_cases hc : (g && !st.1.contains k) = true
    · rw [seenFold, if_pos hc]
      have hknot : k ∉ st.1 := by
        have hands := (Bool.and_eq_true _ _).mp hc
        intro hmem1
        have hcon : st.1.contains k = true := List.elem_eq_true_of_mem hmem1
        rw [hcon] at hands
        simp at hands
      refine ih (k :: st.1, st.2 ++ [it]) (fun e he => hl e (List.mem_cons_of_mem _ he)) ?_ ?_
      · intro a ha
        rcases List.mem_append.mp ha with h | h
        · exact List.mem_cons_of_mem _ (hmem a h)
        · rcases List.mem_singleton.mp h with rfl
          rw [hk]; exact List.mem_cons_self _ _
      · rw [List.map_append]
        rw [List.nodup_append]
        refine ⟨hnd, by simp, ?_⟩
        intro x hx hy
        simp only [List.map_cons, List.map_nil, List.mem_singleton] at hy
        subst hy
        rw [hk] at hx
        rcases List.mem_map.mp hx with ⟨a, ha, hka⟩
        exact hknot (hka ▸ hmem a ha)
    · rw [seenFold, if_neg hc]
      exact ih st (fun e he => hl e (List.mem_cons_of_mem _ he)) hmem hnd

theorem mtPairs_key_link (p : ContentParser) (doc : DNode) (now : Nat) :
    ∀ e ∈ mtPairs1 p doc now ++ mtPairs2 p doc now, e.2.2.1.link = e.2.1 := by
  intro e he
  rcases List.mem_append.mp he with h | h
  · rcases List.mem_map.mp h with ⟨el, _, rfl⟩
    rfl
  · rcases List.mem_map.mp h with ⟨el, _, rfl⟩
    rfl

theorem mtCollect_links_nodup (p : ContentParser) (doc : DNode) (now : Nat) :
    ((mtCollect p doc now).map (fun x => x.1.link)).Nodup := by
  unfold mtCollect
  exact (seenFold_key_inv (fun x : Article × Bool => x.1.link) _ ([], [])
    (mtPairs_key_link p doc now) (by intro a ha; simp at ha) (by simp)).1

theorem mtEnrichOne_link (net : Net) (a : Article) : (mtEnrichOne net a).link = a.link := by
  unfold mtEnrichOne
  cases fetchRuanyifengArticleContent net a.link <;> rfl

theorem mtEnrich_links (net : Net) :
    ∀ (pairs : List (Article × Bool)) (b : Nat),
    (mtEnrich net pairs b).map Article.link = pairs.map (fun x => x.1.link) := by
  intro pairs
  induction pairs with
  | nil => intro b; rfl
  | cons x rest ih =>
    intro b
    obtain ⟨a, flag⟩ := x
    by_cases hc : (flag && decide (0 < b)) = true
    · rw [mtEnrich, if_pos hc, List.map_cons, mtEnrichOne_link, ih]
      rfl
    · rw [mtEnrich, if_neg hc, List.map_cons, ih]
      rfl

/-- C3 as amended: the identifier generator is deterministic, but link
de-duplication (first occurrence wins) happens only inside the Movable
Type strategy, whose emitted records carry pairwise-distinct links both
before and after enrichment and capping; the generic and other simple
strategies emit one record per matched node with no suppression. -/
theorem identifier_dedup_amended :
    (∀ origin s₁ s₂, s₁ = s₂ → generateGuid origin s₁ = generateGuid origin s₂) ∧
    (∀ p doc now, ((mtCollect p doc now).map (fun x => x.1.link)).Nodup) ∧
    (∀ p doc now net, ((parseMovableTypeBlog p doc now net).map Article.link).Nodup) := by
  refine ⟨fun origin s₁ s₂ h => h ▸ rfl, mtCollect_links_nodup, ?_⟩
  intro p doc now net
  unfold parseMovableTypeBlog
  rw [List.map_take]
  refine List.Nodup.sublist (List.take_sublist _ _) ?_
  rw [mtEnrich_links]
  exact mtCollect_links_nodup p doc now

/-- Witness for C3's amended statement at concrete inputs. -/
theorem identifier_dedup_amended_witness :
    generateGuid "https://example.com" "/same" = generateGuid "https://example.com" "/same" ∧
    ((mtCollect mtParser c5Doc 0).map (fun x => x.1.link)).Nodup ∧
    ((parseMovableTypeBlog mtParser c5Doc 0 nullNet).map Article.link).Nodup :=
  ⟨identifier_dedup_amended.1 "https://example.com" "/same" "/same" rfl,
    identifier_dedup_amended.2.1 mtParser c5Doc 0,
    identifier_dedup_amended.2.2 mtParser c5Doc 0 nullNet⟩

/-! ### C5: the fallback to the generic strategy -/

/-- Counterexample for C5: a Movable Type blog page with no entries in
either zone extracts zero records, while the generic strategy on the same
document yields one — the zero-record fallback to the generic strategy
exists only inside the Figma path, not for every archetype. -/
theorem parseContent_no_generic_fallback :
    parseContent mtParser c5Doc "" 0 nullNet = [] ∧
    (parseGenericContent mtParser c5Doc 0).length = 1 := by
  exact ⟨by decide, by decide⟩

/-- C5 as amended: only the portfolio embedded-data (Figma) path falls
back to the generic strategy — on a missing JSON URL, a rejected fetch, a
non-success status, a malformed payload, or an empty walk; the Movable
Type strategy returns its own possibly-empty list without any fallback. -/
theorem figma_fallback_amended :
    (∀ p doc html now net, figmaJsonUrl html = none →
      parseFigmaBasedSite p doc html now net = parseGenericContent p doc now) ∧
    (∀ p doc html now net m e, figmaJsonUrl html = some m →
      net.fetchJson (p.baseUrl ++ m) = Except.error e →
      parseFigmaBasedSite p doc html now net = parseGenericContent p doc now) ∧
    (∀ p doc html now net m resp, figmaJsonUrl html = some m →
      net.fetchJson (p.baseUrl ++ m) = Except.ok resp → resp.ok = false →
      parseFigmaBasedSite p doc html now net = parseGenericContent p doc now) ∧
    (∀ p doc html now net m resp, figmaJsonUrl html = some m →
      net.fetchJson (p.baseUrl ++ m) = Except.ok resp → resp.ok = true → resp.json = none →
      parseFigmaBasedSite p doc html now net = parseGenericContent p doc now) ∧
    (∀ p doc html now net m resp jd, figmaJsonUrl html = some m →
      net.fetchJson (p.baseUrl ++ m) = Except.ok resp → resp.ok = true →
      resp.json = some jd → figmaWalk p jd now = [] →
      parseFigmaBasedSite p doc html now net = parseGenericContent p doc now) ∧
    (∀ p doc now net, mtCollect p doc now = [] →
      parseMovableTypeBlog p doc now net = []) := by
  refine ⟨?_, ?_, ?_, ?_, ?_, ?_⟩
  · intro p doc html now net h
    unfold parseFigmaBasedSite
    simp only [h]
  · intro p doc html now net m e h1 h2
    unfold parseFigmaBasedSite
    simp only [h1, h2]
  · intro p doc html now net m resp h1 h2 h3
    unfold parseFigmaBasedSite
    simp only [h1, h2, h3, Bool.not_false, if_true]
  · intro p doc html now net m resp h1 h2 h3 h4
    unfold parseFigmaBasedSite
    simp only [h1, h2, h3, h4, Bool.not_true, Bool.false_eq_true, if_false]
  · intro p doc html now net m resp jd h1 h2 h3 h4 h5
    unfold parseFigmaBasedSite
    simp only [h1, h2, h3, h4, h5, Bool.not_true, Bool.false_eq_true, if_false,
      List.length_nil, Nat.lt_irrefl]
  · intro p doc now net h
    unfold parseMovableTypeBlog
    rw [h]
    rfl

/-- Witness for C5's amended statement: each fallback case at a concrete
input. -/
theorem figma_fallback_amended_witness :
    parseFigmaBasedSite figmaParser figmaTestDoc "" 0 nullNet
      = parseGenericContent figmaParser figmaTestDoc 0 ∧
    parseFigmaBasedSite figmaParser figmaTestDoc figmaHtml 0 nullNet
      = parseGenericContent figmaParser figmaTestDoc 0 ∧
    parseFigmaBasedSite figmaParser figmaTestDoc figmaHtml 0 net404
      = parseGenericContent figmaParser figmaTestDoc 0 ∧
    parseFigmaBasedSite figmaParser figmaTestDoc figmaHtml 0 netBadJson
      = parseGenericContent figmaParser figmaTestDoc 0 ∧
    parseFigmaBasedSite figmaParser figmaTestDoc figmaHtml 0 netEmptyJson
      = parseGenericContent figmaParser figmaTestDoc 0 ∧
    parseMovableTypeBlog mtParser c5Doc 0 nullNet = [] := by
  refine ⟨figma_fallback_amended.1 _ _ _ _ _ (by decide),
    figma_fallback_amended.2.1 figmaParser figmaTestDoc figmaHtml 0 nullNet
      "/_json/site.json" "fetch failed" (by decide) rfl,
    figma_fallback_amended.2.2.1 figmaParser figmaTestDoc figmaHtml 0 net404
      "/_json/site.json" ⟨false, 404, none⟩ (by decide) rfl rfl,
    figma_fallback_amended.2.2.2.1 figmaParser figmaTestDoc figmaHtml 0 netBadJson
      "/_json/site.json" ⟨true, 200, none⟩ (by decide) rfl rfl rfl,
    figma_fallback_amended.2.2.2.2.1 figmaParser figmaTestDoc figmaHtml 0 netEmptyJson
      "/_json/site.json" ⟨true, 200, some ⟨some []⟩⟩ ⟨some []⟩ (by decide) rfl rfl rfl rfl,
    figma_fallback_amended.2.2.2.2.2 mtParser c5Doc 0 nullNet (by decide)⟩

/-! ### C8: the WordPress end-to-end scenario -/

/-- Counterexample for C8: on exactly the claimed page shape (generator
meta `WordPress 6.0`, one article node with an entry-title class)
classify does not return a blog result with confidence ≥ 50 — it throws
(the missing Blogger detector), and the WordPress detector itself scores
only 40, which is also below its own rule-attachment threshold. -/
theorem wp_scenario_counterexample :
    detectSiteType wpPage wpHtml "https://example-blog.com"
      = Except.error "TypeError: Cannot read properties of undefined (reading call)" ∧
    (detectWordPress wpPage "https://example-blog.com" wpHtml).confidence = 40 := by
  constructor
  · simp [detectSiteType, siteDetectors, runDetectors]
  · decide

/-- C8 as amended: a page with a generator meta naming WordPress and an
entry-title article node, but no wp-content/wp-includes marker and no
admin-bar body class, scores exactly 40 from the WordPress detector —
blog/wordpress, below the ≥ 50 claim and below the detector's own
rule threshold, so the selector-rule map stays empty; blog extraction
with an empty rule map yields no records (and the coordinator as a whole
throws, per the missing Blogger detector). -/
theorem detectWordPress_generator_only (doc : DNode) (url html : String)
    (h1 : strContains html "wp-content" = false)
    (h2 : strContains html "wp-includes" = false)
    (h3 : ((selAttr (docSelect doc metaGeneratorSel) "content").map
      (fun s => strContains s "WordPress")).getD false = true)
    (h4 : selHasClass (docSelect doc bodySel) "wp-admin-bar-front" = false) :
    detectWordPress doc url html
      = ⟨"blog", "wordpress", 40, emptyRules, ["wp-generator-meta"]⟩ ∧
    ∀ (p : ContentParser) (doc' : DNode) (now : Nat),
      p.siteInfo.selectors = emptyRules → parseBlogSimple p doc' now = [] := by
  constructor
  · unfold detectWordPress
    simp only [h1, h2, h3, h4, Bool.or_self, Bool.false_or, if_false, if_true]
    rfl
  · intro p doc' now hsel
    unfold parseBlogSimple
    rw [hsel]
    rfl

/-- Witness for C8's amended statement at the concrete scenario page. -/
theorem detectWordPress_generator_only_witness :
    detectWordPress wpPage "https://example-blog.com" wpHtml
      = ⟨"blog", "wordpress", 40, emptyRules, ["wp-generator-meta"]⟩ ∧
    parseBlogSimple wpParser40 wpPage 0 = [] := by
  refine ⟨?_, ?_⟩
  · exact (detectWordPress_generator_only wpPage "https://example-blog.com" wpHtml
      (by decide) (by decide) (by decide) (by decide)).1
  · exact (detectWordPress_generator_only wpPage "https://example-blog.com" wpHtml
      (by decide) (by decide) (by decide) (by decide)).2 wpParser40 wpPage 0 rfl

/-! ### C7: enrichment failure isolation -/

theorem mtEnrichOne_recordKey (net : Net) (a : Article) :
    recordKey (mtEnrichOne net a) = recordKey a := by
  unfold mtEnrichOne
  cases fetchRuanyifengArticleContent net a.link <;> rfl

theorem mtEnrich_recordKey (net : Net) :
    ∀ (pairs : List (Article × Bool)) (b : Nat),
    (mtEnrich net pairs b).map recordKey = pairs.map (fun x => recordKey x.1) := by
  intro pairs
  induction pairs with
  | nil => intro b; rfl
  | cons x rest ih =>
    intro b
    obtain ⟨a, flag⟩ := x
    by_cases hc : (flag && decide (0 < b)) = true
    · rw [mtEnrich, if_pos hc, List.map_cons, mtEnrichOne_recordKey, ih]
      rfl
    · rw [mtEnrich, if_neg hc, List.map_cons, ih]
      rfl

theorem mtEnrich_nullNet :
    ∀ (pairs : List (Article × Bool)) (b : Nat),
    mtEnrich nullNet pairs b = pairs.map Prod.fst := by
  intro pairs
  induction pairs with
  | nil => intro b; rfl
  | cons x rest ih =>
    intro b
    obtain ⟨a, flag⟩ := x
    have hone : mtEnrichOne nullNet a = a := rfl
    by_cases hc : (flag && decide (0 < b)) = true
    · rw [mtEnrich, if_pos hc, hone, ih]
      rfl
    · rw [mtEnrich, if_neg hc, ih]
      rfl

/-- C7: secondary-fetch failures are invisible outside enrichment: a
rejected fetch or a non-success status makes the per-record fetch yield
null (no exception escapes); a record whose fetch yields null keeps its
pre-enrichment content verbatim; the emitted records' titles, links,
identifiers and dates are identical whatever the network does (every
record is still processed); and with an always-failing network the
strategy returns exactly the pre-enrichment record list. -/
theorem enrichment_failure_isolated :
    (∀ net url e, net.fetchPage url = Except.error e →
      fetchRuanyifengArticleContent net url = none) ∧
    (∀ net url resp, net.fetchPage url = Except.ok resp → resp.ok = false →
      fetchRuanyifengArticleContent net url = none) ∧
    (∀ net a, fetchRuanyifengArticleContent net a.link = none → mtEnrichOne net a = a) ∧
    (∀ net p doc now,
      (parseMovableTypeBlog p doc now net).map recordKey
        = (parseMovableTypeBlog p doc now nullNet).map recordKey) ∧
    (∀ p doc now, parseMovableTypeBlog p doc now nullNet
      = ((mtCollect p doc now).map Prod.fst).take 20) := by
  refine ⟨?_, ?_, ?_, ?_, ?_⟩
  · intro net url e h
    unfold fetchRuanyifengArticleContent
    rw [h]
  · intro net url resp h1 h2
    unfold fetchRuanyifengArticleContent
    rw [h1]
    simp [h2]
  · intro net a h
    unfold mtEnrichOne
    rw [h]
  · intro net p doc now
    unfold parseMovableTypeBlog
    rw [List.map_take, List.map_take, mtEnrich_recordKey, mtEnrich_recordKey]
  · intro p doc now
    unfold parseMovableTypeBlog
    rw [mtEnrich_nullNet]

/-- Witness for C7 at concrete failing networks and records. -/
theorem enrichment_failure_isolated_witness :
    fetchRuanyifengArticleContent nullNet "https://www.ruanyifeng.com/blog/x.html" = none ∧
    fetchRuanyifengArticleContent pageNet404 "https://www.ruanyifeng.com/blog/x.html" = none ∧
    mtEnrichOne nullNet mtProbeArticle = mtProbeArticle ∧
    (parseMovableTypeBlog mtParser c5Doc 0 pageNet404).map recordKey
      = (parseMovableTypeBlog mtParser c5Doc 0 nullNet).map recordKey ∧
    parseMovableTypeBlog mtParser c5Doc 0 nullNet
      = ((mtCollect mtParser c5Doc 0).map Prod.fst).take 20 := by
  refine ⟨?_, ?_, ?_, ?_, ?_⟩
  · exact enrichment_failure_isolated.1 nullNet _ "fetch failed" rfl
  · exact enrichment_failure_isolated.2.1 pageNet404 _ ⟨false, 404, .el "html" [] []⟩ rfl rfl
  · exact enrichment_failure_isolated.2.2.1 nullNet mtProbeArticle rfl
  · exact enrichment_failure_isolated.2.2.2.1 pageNet404 mtParser c5Doc 0
  · exact enrichment_failure_isolated.2.2.2.2 mtParser c5Doc 0

/-! ### C2: determinism and the clock

The strategies read the clock (via the new-Date and Date.now calls); it
flows into every record's pubDate and into the Figma path's identifiers.
The projection erasing those two fields is proved independent of the
clock for every strategy; the counterexample shows that full
byte-identity across calls at different times fails.
-/

theorem stableProj_mk {t l d c au cat im : _} (p₁ p₂ g₁ g₂ : String) :
    stableProj ⟨t, l, d, c, p₁, g₁, au, cat, im⟩
      = stableProj ⟨t, l, d, c, p₂, g₂, au, cat, im⟩ := rfl

theorem map_stable_ite (c : Prop) [Decidable c] (a₁ a₂ : Article)
    (h : stableProj a₁ = stableProj a₂) :
    (if c then some a₁ else none).map stableProj
      = (if c then some a₂ else none).map stableProj := by
  by_cases hc : c
  · rw [if_pos hc, if_pos hc]
    show some (stableProj a₁) = some (stableProj a₂)
    exact congrArg some h
  · rw [if_neg hc, if_neg hc]

theorem filterMap_map_stable {β : Type} (l : List β) (h₁ h₂ : β → Option Article)
    (h : ∀ x, (h₁ x).map stableProj = (h₂ x).map stableProj) :
    (l.filterMap h₁).map stableProj = (l.filterMap h₂).map stableProj := by
  induction l with
  | nil => rfl
  | cons x rest ih =>
    have hx := h x
    rw [List.filterMap_cons, List.filterMap_cons]
    cases hx1 : h₁ x with
    | none =>
      cases hx2 : h₂ x with
      | none => exact ih
      | some b => rw [hx1, hx2] at hx; exact Option.noConfusion hx
    | some a =>
      cases hx2 : h₂ x with
      | none => rw [hx1, hx2] at hx; exact Option.noConfusion hx
      | some b =>
        rw [hx1, hx2] at hx
        rw [List.map_cons, List.map_cons, ih, Option.some.inj hx]

theorem parseGenericContent_stable (p : ContentParser) (doc : DNode) (t₁ t₂ : Nat) :
    (parseGenericContent p doc t₁).map stableProj
      = (parseGenericContent p doc t₂).map stableProj := by
  unfold parseGenericContent
  exact filterMap_map_stable _ _ _
    (fun el => map_stable_ite _ _ _ (stableProj_mk _ _ _ _))

theorem foldl_rel {σ β : Type} (R : σ → σ → Prop) (f g : σ → β → σ)
    (hstep : ∀ s₁ s₂ b, R s₁ s₂ → R (f s₁ b) (g s₂ b)) :
    ∀ (l : List β) s₁ s₂, R s₁ s₂ → R (l.foldl f s₁) (l.foldl g s₂) := by
  intro l
  induction l with
  | nil => intro s₁ s₂ h; exact h
  | cons x rest ih => intro s₁ s₂ h; exact ih _ _ (hstep s₁ s₂ x h)

theorem stRel_append (s₁ s₂ : List String × List Article) (k : String)
    (a₁ a₂ : Article) (h : stRel s₁ s₂) (ha : stableProj a₁ = stableProj a₂) :
    stRel (k :: s₁.1, s₁.2 ++ [a₁]) (k :: s₂.1, s₂.2 ++ [a₂]) := by
  refine ⟨by rw [h.1], ?_⟩
  rw [List.map_append, List.map_append, h.2]
  show _ ++ [stableProj a₁] = _ ++ [stableProj a₂]
  rw [ha]

theorem figmaActionStep_stable (p : ContentParser) (nodeId : String) (t₁ t₂ : Nat) :
    ∀ s₁ s₂ inter, stRel s₁ s₂ →
      stRel (figmaActionStep p t₁ nodeId s₁ inter) (figmaActionStep p t₂ nodeId s₂ inter) := by
  intro s₁ s₂ inter h
  obtain ⟨k₁, a₁⟩ := s₁
  obtain ⟨k₂, a₂⟩ := s₂
  obtain ⟨h1, h2⟩ := h
  dsimp only at h1 h2
  subst h1
  unfold figmaActionStep
  cases inter.actions.head? with
  | none => exact ⟨rfl, h2⟩
  | some action =>
    dsimp only
    cases action.connectionURL with
    | none => exact ⟨rfl, h2⟩
    | some cu =>
      dsimp only
      by_cases hc : (jsStartsWith cu "/" && !strContains cu "http" && decide (1 < cu.length)) = true
      · rw [if_pos hc, if_pos hc]
        by_cases hs : (decide (replaceFirst (replaceFirst cu "/" "") "-" " " ≠ "") &&
            !k₁.contains ("project-" ++ replaceFirst (replaceFirst cu "/" "") "-" " ") &&
            decide ((replaceFirst (replaceFirst cu "/" "") "-" " ").length < 30)) = true
        · rw [if_pos hs, if_pos hs]
          exact stRel_append (k₁, a₁) (k₁, a₂) _ _ _ ⟨rfl, h2⟩ (stableProj_mk _ _ _ _)
        · rw [if_neg hs, if_neg hs]
          exact ⟨rfl, h2⟩
      · rw [if_neg hc, if_neg hc]
        exact ⟨rfl, h2⟩

theorem figmaTextStep_stable (p : ContentParser) (nodeId : String) (node : FigNode) (t₁ t₂ : Nat) :
    ∀ s₁ s₂, stRel s₁ s₂ →
      stRel (figmaTextStep p t₁ nodeId node s₁) (figmaTextStep p t₂ nodeId node s₂) := by
  intro s₁ s₂ h
  obtain ⟨k₁, a₁⟩ := s₁
  obtain ⟨k₂, a₂⟩ := s₂
  obtain ⟨h1, h2⟩ := h
  dsimp only at h1 h2
  subst h1
  unfold figmaTextStep
  by_cases hn : (decide (node.ntype = "TEXT") && jsTruthy node.characters) = true
  · rw [if_pos hn, if_pos hn]
    by_cases ht : (decide (30 < (jsTrim (node.characters.getD "")).length) &&
        decide ((jsTrim (node.characters.getD "")).length < 200) &&
        (strContains (lowerStr (jsTrim (node.characters.getD ""))) "design" ||
         strContains (lowerStr (jsTrim (node.characters.getD ""))) "project" ||
         strContains (lowerStr (jsTrim (node.characters.getD ""))) "developed" ||
         strContains (lowerStr (jsTrim (node.characters.getD ""))) "led")) = true
    · rw [if_pos ht, if_pos ht]
      by_cases hs : (!k₁.contains
          ("text-" ++ String.mk ((jsTrim (node.characters.getD "")).data.take 20))) = true
      · rw [if_pos hs, if_pos hs]
        exact stRel_append (k₁, a₁) (k₁, a₂) _ _ _ ⟨rfl, h2⟩ (stableProj_mk _ _ _ _)
      · rw [if_neg hs, if_neg hs]
        exact ⟨rfl, h2⟩
    · rw [if_neg ht, if_neg ht]
      exact ⟨rfl, h2⟩
  · rw [if_neg hn, if_neg hn]
    exact ⟨rfl, h2⟩

theorem figmaNodeStep_stable (p : ContentParser) (t₁ t₂ : Nat) :
    ∀ s₁ s₂ kv, stRel s₁ s₂ →
      stRel (figmaNodeStep p t₁ s₁ kv) (figmaNodeStep p t₂ s₂ kv) := by
  intro s₁ s₂ kv h
  unfold figmaNodeStep
  cases kv.2.interactions with
  | none => exact figmaTextStep_stable p kv.1 kv.2 t₁ t₂ s₁ s₂ h
  | some inters =>
    exact figmaTextStep_stable p kv.1 kv.2 t₁ t₂ _ _
      (foldl_rel stRel _ _ (figmaActionStep_stable p kv.1 t₁ t₂) inters s₁ s₂ h)

theorem figmaWalk_stable (p : ContentParser) (jd : FigmaDoc) (t₁ t₂ : Nat) :
    (figmaWalk p jd t₁).map stableProj = (figmaWalk p jd t₂).map stableProj := by
  unfold figmaWalk
  cases jd.nodeById with
  | none => rfl
  | some nodes =>
    exact (foldl_rel stRel _ _ (figmaNodeStep_stable p t₁ t₂) nodes ([], []) ([], [])
      ⟨rfl, rfl⟩).2

theorem parseNewsContent_stable (p : ContentParser) (doc : DNode) (t₁ t₂ : Nat) :
    (parseNewsContent p doc t₁).map stableProj
      = (parseNewsContent p doc t₂).map stableProj := by
  unfold parseNewsContent
  exact filterMap_map_stable _ _ _
    (fun el => map_stable_ite _ _ _ (stableProj_mk _ _ _ _))

theorem parseECommerceContent_stable (p : ContentParser) (doc : DNode) (t₁ t₂ : Nat) :
    (parseECommerceContent p doc t₁).map stableProj
      = (parseECommerceContent p doc t₂).map stableProj := by
  unfold parseECommerceContent
  exact filterMap_map_stable _ _ _
    (fun el => map_stable_ite _ _ _ (stableProj_mk _ _ _ _))

theorem parseRepositoryContent_stable (p : ContentParser) (doc : DNode) (t₁ t₂ : Nat) :
    (parseRepositoryContent p doc t₁).map stableProj
      = (parseRepositoryContent p doc t₂).map stableProj := by
  unfold parseRepositoryContent
  exact filterMap_map_stable _ _ _
    (fun el => map_stable_ite _ _ _ (stableProj_mk _ _ _ _))

theorem parseBlogSimple_stable (p : ContentParser) (doc : DNode) (t₁ t₂ : Nat) :
    (parseBlogSimple p doc t₁).map stableProj
      = (parseBlogSimple p doc t₂).map stableProj := by
  unfold parseBlogSimple
  exact filterMap_map_stable _ _ _
    (fun el => map_stable_ite _ _ _ (stableProj_mk _ _ _ _))

theorem parsePortfolioStandard_stable (p : ContentParser) (doc : DNode) (t₁ t₂ : Nat) :
    (parsePortfolioStandard p doc t₁).map stableProj
      = (parsePortfolioStandard p doc t₂).map stableProj := by
  unfold parsePortfolioStandard
  rw [List.map_take, List.map_take]
  exact congrArg (List.take 20)
    (filterMap_map_stable _ _ _
      (fun ie => map_stable_ite _ _ _ (stableProj_mk _ _ _ _)))

theorem parseFigmaBasedSite_stable (p : ContentParser) (doc : DNode) (html : String)
    (net : Net) (t₁ t₂ : Nat) :
    (parseFigmaBasedSite p doc html t₁ net).map stableProj
      = (parseFigmaBasedSite p doc html t₂ net).map stableProj := by
  unfold parseFigmaBasedSite
  cases figmaJsonUrl html with
  | none => exact parseGenericContent_stable p doc t₁ t₂
  | some m =>
    dsimp only
    cases net.fetchJson (p.baseUrl ++ m) with
    | error e => exact parseGenericContent_stable p doc t₁ t₂
    | ok resp =>
      dsimp only
      by_cases ho : (!resp.ok) = true
      · rw [if_pos ho, if_pos ho]
        exact parseGenericContent_stable p doc t₁ t₂
      · rw [if_neg ho, if_neg ho]
        cases resp.json with
        | none => exact parseGenericContent_stable p doc t₁ t₂
        | some jd =>
          dsimp only
          have hw := figmaWalk_stable p jd t₁ t₂
          have hlen : (figmaWalk p jd t₁).length = (figmaWalk p jd t₂).length := by
            have hh := congrArg List.length hw
            rw [List.length_map, List.length_map] at hh
            exact hh
          by_cases hl : 0 < (figmaWalk p jd t₁).length
          · rw [if_pos hl, if_pos (hlen ▸ hl)]
            rw [List.map_take, List.map_take, hw]
          · rw [if_neg hl, if_neg (fun hh => hl (by rw [hlen]; exact hh))]
            exact parseGenericContent_stable p doc t₁ t₂

theorem parsePortfolioContent_stable (p : ContentParser) (doc : DNode) (html : String)
    (net : Net) (t₁ t₂ : Nat) :
    (parsePortfolioContent p doc html t₁ net).map stableProj
      = (parsePortfolioContent p doc html t₂ net).map stableProj := by
  unfold parsePortfolioContent
  by_cases hc : (strContains html "_json/" && strContains html ".json") = true
  · rw [if_pos hc, if_pos hc]
    exact parseFigmaBasedSite_stable p doc html net t₁ t₂
  · rw [if_neg hc, if_neg hc]
    exact parsePortfolioStandard_stable p doc t₁ t₂

theorem seenFold_rel :
    ∀ (l₁ l₂ : List (Bool × String × (Article × Bool))),
    List.Forall₂ entryRel l₁ l₂ →
    ∀ (st₁ st₂ : List String × List (Article × Bool)), st₁.1 = st₂.1 →
    List.Forall₂ pairRel st₁.2 st₂.2 →
    (seenFold l₁ st₁).1 = (seenFold l₂ st₂).1 ∧
      List.Forall₂ pairRel (seenFold l₁ st₁).2 (seenFold l₂ st₂).2 := by
  intro l₁
  induction l₁ with
  | nil =>
    intro l₂ hf st₁ st₂ h1 h2
    cases hf
    exact ⟨h1, h2⟩
  | cons e rest ih =>
    intro l₂ hf st₁ st₂ h1 h2
    cases hf with
    | cons he hrest =>
      rename_i y l₂'
      obtain ⟨g₁, k₁, it₁⟩ := e
      obtain ⟨g₂, k₂, it₂⟩ := y
      obtain ⟨hg, hk, hp⟩ := he
      dsimp only at hg hk hp
      subst hg
      subst hk
      obtain ⟨kk₁, aa₁⟩ := st₁
      obtain ⟨kk₂, aa₂⟩ := st₂
      dsimp only at h1 h2
      subst h1
      rw [seenFold, seenFold]
      dsimp only
      by_cases hc : (g₁ && !kk₁.contains k₁) = true
      · rw [if_pos hc, if_pos hc]
        exact ih l₂' hrest (k₁ :: kk₁, aa₁ ++ [it₁]) (k₁ :: kk₁, aa₂ ++ [it₂]) rfl
          (List.rel_append h2 (List.Forall₂.cons hp List.Forall₂.nil))
      · rw [if_neg hc, if_neg hc]
        exact ih l₂' hrest (kk₁, aa₁) (kk₁, aa₂) rfl h2

theorem forall₂_map_same {β γ : Type} (R : γ → γ → Prop) (l : List β) (f g : β → γ)
    (h : ∀ x, R (f x) (g x)) : List.Forall₂ R (l.map f) (l.map g) := by
  induction l with
  | nil => exact List.Forall₂.nil
  | cons x rest ih => exact List.Forall₂.cons (h x) ih

theorem mtEntryArticle_stable (p : ContentParser) (el : DNode) (t₁ t₂ : Nat) :
    pairRel (mtEntryArticle p t₁ el) (mtEntryArticle p t₂ el) := by
  constructor
  · show stableProj (mtEntryArticle p t₁ el).1 = stableProj (mtEntryArticle p t₂ el).1
    unfold mtEntryArticle
    dsimp only
    exact stableProj_mk _ _ _ _
  · rfl

theorem mtListArticle_stable (p : ContentParser) (el : DNode) (t₁ t₂ : Nat) :
    pairRel (mtListArticle p t₁ el) (mtListArticle p t₂ el) := by
  constructor
  · show stableProj (mtListArticle p t₁ el).1 = stableProj (mtListArticle p t₂ el).1
    unfold mtListArticle
    dsimp only
    exact stableProj_mk _ _ _ _
  · rfl

theorem mtCollect_rel (p : ContentParser) (doc : DNode) (t₁ t₂ : Nat) :
    List.Forall₂ pairRel (mtCollect p doc t₁) (mtCollect p doc t₂) := by
  unfold mtCollect
  refine (seenFold_rel _ _ ?_ ([], []) ([], []) rfl List.Forall₂.nil).2
  unfold mtPairs1 mtPairs2
  refine List.rel_append ?_ ?_
  · exact forall₂_map_same entryRel _ _ _
      (fun el => ⟨rfl, rfl, mtEntryArticle_stable p el t₁ t₂⟩)
  · exact forall₂_map_same entryRel _ _ _
      (fun el => ⟨rfl, rfl, mtListArticle_stable p el t₁ t₂⟩)

theorem stableProj_update (x y : Article) (h : stableProj x = stableProj y) (c d : String) :
    stableProj { x with content := c, description := d }
      = stableProj { y with content := c, description := d } := by
  cases x
  cases y
  simp only [stableProj, Article.mk.injEq] at h
  obtain ⟨h1, h2, h3, h4, -, -, h7, h8, h9⟩ := h
  subst h1; subst h2; subst h3; subst h4; subst h7; subst h8; subst h9
  rfl

theorem mtEnrichOne_stable (net : Net) (a₁ a₂ : Article)
    (h : stableProj a₁ = stableProj a₂) :
    stableProj (mtEnrichOne net a₁) = stableProj (mtEnrichOne net a₂) := by
  have hlink : a₁.link = a₂.link := by
    have hh := congrArg Article.link h
    exact hh
  unfold mtEnrichOne
  rw [show fetchRuanyifengArticleContent net a₁.link
      = fetchRuanyifengArticleContent net a₂.link from by rw [hlink]]
  cases fetchRuanyifengArticleContent net a₂.link with
  | none => exact h
  | some c =>
    exact stableProj_update a₁ a₂ h c (generateSummary (stripTags c) 300)

theorem mtEnrich_stable (net : Net) :
    ∀ (pairs₁ pairs₂ : List (Article × Bool)), List.Forall₂ pairRel pairs₁ pairs₂ →
    ∀ b, (mtEnrich net pairs₁ b).map stableProj = (mtEnrich net pairs₂ b).map stableProj := by
  intro pairs₁ pairs₂ hf
  induction hf with
  | nil => intro b; rfl
  | cons hxy hrest ih =>
    intro b
    rename_i x y l₁ l₂
    obtain ⟨a₁, f₁⟩ := x
    obtain ⟨a₂, f₂⟩ := y
    obtain ⟨hsp, hfl⟩ := hxy
    dsimp only at hsp hfl
    subst hfl
    by_cases hc : (f₁ && decide (0 < b)) = true
    · rw [mtEnrich, mtEnrich, if_pos hc, if_pos hc, List.map_cons, List.map_cons, ih]
      rw [mtEnrichOne_stable net a₁ a₂ hsp]
    · rw [mtEnrich, mtEnrich, if_neg hc, if_neg hc, List.map_cons, List.map_cons, ih, hsp]

theorem parseMovableTypeBlog_stable (p : ContentParser) (doc : DNode) (net : Net)
    (t₁ t₂ : Nat) :
    (parseMovableTypeBlog p doc t₁ net).map stableProj
      = (parseMovableTypeBlog p doc t₂ net).map stableProj := by
  unfold parseMovableTypeBlog
  rw [List.map_take, List.map_take]
  exact congrArg (List.take 20) (mtEnrich_stable net _ _ (mtCollect_rel p doc t₁ t₂) 5)

theorem parseBlogContent_stable (p : ContentParser) (doc : DNode) (net : Net) (t₁ t₂ : Nat) :
    (parseBlogContent p doc t₁ net).map stableProj
      = (parseBlogContent p doc t₂ net).map stableProj := by
  unfold parseBlogContent
  by_cases hc : p.siteInfo.platform = "movable-type"
  · rw [if_pos hc, if_pos hc]
    exact parseMovableTypeBlog_stable p doc net t₁ t₂
  · rw [if_neg hc, if_neg hc]
    exact parseBlogSimple_stable p doc t₁ t₂

/-- C2 as amended: with the document, markup, origin and network
responses fixed, the records extracted at two different clock readings
agree on every field except pubDate and guid (the clock flows only into
pubDate everywhere and into the Figma path's identifiers). -/
theorem extract_time_invariant (p : ContentParser) (doc : DNode) (html : String)
    (net : Net) (t₁ t₂ : Nat) :
    (parseContent p doc html t₁ net).map stableProj
      = (parseContent p doc html t₂ net).map stableProj := by
  unfold parseContent
  split
  · exact parsePortfolioContent_stable p doc html net t₁ t₂
  · exact parseBlogContent_stable p doc net t₁ t₂
  · exact parseNewsContent_stable p doc t₁ t₂
  · exact parseECommerceContent_stable p doc t₁ t₂
  · exact parseRepositoryContent_stable p doc t₁ t₂
  · exact parseGenericContent_stable p doc t₁ t₂

/-- Counterexample for C2: two extract calls on identical inputs (same
document, markup, classification and network responses) at different
clock readings are not byte-identical: the Figma path stamps the current
milliseconds into the record identifier. -/
theorem extract_not_byte_identical :
    parseContent figmaParser figmaTestDoc figmaHtml 0 figmaNet
      ≠ parseContent figmaParser figmaTestDoc figmaHtml 1 figmaNet := by decide

/-- Witness instantiating C2's amended statement at a concrete run: the
stable projections of the two runs above agree. -/
theorem extract_time_invariant_witness :
    (parseContent figmaParser figmaTestDoc figmaHtml 0 figmaNet).map stableProj
      = (parseContent figmaParser figmaTestDoc figmaHtml 1 figmaNet).map stableProj :=
  extract_time_invariant figmaParser figmaTestDoc figmaHtml figmaNet 0 1

